import Mathlib

/-!
Shallow embedding of the intersection-analysis core of this repository:
src/extractor/guidance/intersection_generator.cpp,
src/extractor/guidance/intersection.cpp and
include/extractor/guidance/toolkit.hpp.

Machine doubles are modelled as exact rationals, fixed-point coordinates as
rationals, and the external collaborators (node-based graph, restriction map,
barrier set, coordinate extractor, bearing and haversine utilities) as record
fields holding arbitrary functions.  Utilities of the repository that are not
among the given sources (util/bearing.hpp, util/guidance/toolkit.hpp, the
shape comparator of extractor/guidance/intersection.hpp and the
DirectionModifier enumeration) are modelled from the specification; each such
definition carries a doc comment saying so.
-/

namespace Osrm

abbrev NodeID := Nat
abbrev EdgeID := Nat

/-- Sentinel node id, std::numeric_limits of unsigned max in the source. -/
def SPECIAL_NODEID : NodeID := 2 ^ 32 - 1

/-- Machine epsilon of an IEEE double: the constant
std::numeric_limits double epsilon that the source uses for every
approximate-zero test. -/
def machineEps : ℚ := 1 / 2 ^ 52

/-- Modelled from the spec: reduction of an angle into [0, 360), the mod 360
operation that the bearing utilities of util/bearing.hpp (not among the given
sources) apply to every produced angle. -/
def normBearing (x : ℚ) : ℚ := x - 360 * ⌊x / 360⌋

/-- Modelled from the spec, section 4.C1: reverse_bearing(b) = (b + 180) mod
360 (util/bearing.hpp is not among the given sources). -/
def reverseBearing (b : ℚ) : ℚ := normBearing (b + 180)

/-- Modelled from the spec, section 4.C1 and invariant 6 of section 8:
angle_between_bearings maps a U-turn (exit opposite to the reversed entry
bearing) to 0 and an exit equal to the reversed entry bearing to 180, that is
(exit - entry + 180) mod 360 (util/bearing.hpp is not among the given
sources). -/
def angleBetweenBearings (entry_bearing exit_bearing : ℚ) : ℚ :=
  normBearing (exit_bearing - entry_bearing + 180)

/-- Modelled from the spec, section 4.C1: angular_deviation(a, b) =
min(|a - b|, 360 - |a - b|) (util/guidance/toolkit.hpp is not among the given
sources). -/
def angularDeviation (a b : ℚ) : ℚ := min |a - b| (360 - |a - b|)

/-- Fixed-point coordinate of util/coordinate.hpp, modelled as an exact
rational longitude/latitude pair. -/
structure Coordinate where
  lon : ℚ
  lat : ℚ
deriving DecidableEq, Repr

/-- Road classification payload of an edge: the number of lanes consulted by
getLaneCountAtIntersection, plus an opaque remainder. -/
structure RoadClassification where
  num_lanes : Nat
  payload : Nat
deriving DecidableEq, Repr

/-- Edge payload of the node-based graph as consumed by the core: the
reversed flag plus the road classification. -/
structure EdgeData where
  reversed : Bool
  road_classification : RoadClassification
deriving DecidableEq, Repr

/-- Modelled from the spec, section 3: the compatibility predicate of
EdgeData (util/node_based_graph.hpp is not among the given sources);
compatibility is agreement of the payload. -/
def EdgeData.IsCompatibleTo (a b : EdgeData) : Bool :=
  a.reversed == b.reversed && a.road_classification == b.road_classification

/-- External contract of util::NodeBasedDynamicGraph as consumed by the
intersection generator. -/
structure NodeBasedDynamicGraph where
  numNodes : Nat
  GetTarget : EdgeID → NodeID
  GetAdjacentEdgeRange : NodeID → List EdgeID
  BeginEdges : NodeID → EdgeID
  GetEdgeData : EdgeID → EdgeData

def NodeBasedDynamicGraph.GetOutDegree (g : NodeBasedDynamicGraph) (n : NodeID) : Nat :=
  (g.GetAdjacentEdgeRange n).length

/-- FindEdge of the dynamic graph: the first adjacent edge of u whose target
is v, the SPECIAL_EDGEID result being modelled as none. -/
def NodeBasedDynamicGraph.FindEdge (g : NodeBasedDynamicGraph) (u v : NodeID) : Option EdgeID :=
  (g.GetAdjacentEdgeRange u).find? (fun e => g.GetTarget e == v)

/-- External contract of the RestrictionMap: CheckForEmanatingIsOnlyTurn
returns SPECIAL_NODEID when no only-turn restriction applies. -/
structure RestrictionMap where
  CheckIfTurnIsRestricted : NodeID → NodeID → NodeID → Bool
  CheckForEmanatingIsOnlyTurn : NodeID → NodeID → NodeID

/-- External contract of the CoordinateExtractor. -/
structure CoordinateExtractor where
  GetCoordinatesAlongRoad : NodeID → EdgeID → Bool → NodeID → List Coordinate
  GetCoordinateCloseToTurn : NodeID → EdgeID → Bool → NodeID → Coordinate
  ExtractRepresentativeCoordinate :
    NodeID → EdgeID → Bool → NodeID → Nat → List Coordinate → Coordinate

/-- The IntersectionGenerator: immutable borrows of the collaborators,
together with the two geometric primitives bearing and haversine distance of
util/coordinate_calculation.hpp (not among the given sources, hence kept
abstract). -/
structure IntersectionGenerator where
  node_based_graph : NodeBasedDynamicGraph
  restriction_map : RestrictionMap
  barrier_nodes : NodeID → Bool
  node_info_list : NodeID → Coordinate
  coordinate_extractor : CoordinateExtractor
  bearing : Coordinate → Coordinate → ℚ
  haversineDistance : Coordinate → Coordinate → ℚ

/-- Anonymous-namespace constant of intersection_generator.cpp. -/
def USE_LOW_PRECISION_MODE : Bool := true

/-- The inverse of use low precision mode. -/
def USE_HIGH_PRECISION_MODE : Bool := !USE_LOW_PRECISION_MODE

/-- util::coordinate_calculation::getLength over haversineDistance: sum of
the distances between adjacent polyline coordinates. -/
def getLength (dist : Coordinate → Coordinate → ℚ) : List Coordinate → ℚ
  | [] => 0
  | [_] => 0
  | a :: b :: rest => dist a b + getLength dist (b :: rest)

/-- IntersectionShapeData of extractor/guidance/intersection.hpp. -/
structure IntersectionShapeData where
  eid : EdgeID
  bearing : ℚ
  segment_length : ℚ
deriving DecidableEq, Repr

/-- IntersectionViewData: shape data plus entry_allowed and the turn angle. -/
structure IntersectionViewData extends IntersectionShapeData where
  entry_allowed : Bool
  angle : ℚ
deriving DecidableEq, Repr

/-- Modelled from the spec, section 4.C10 and the design note of section 9:
the DirectionModifier enumeration has MaxDirectionModifier = 8 members; the
order UTurn, SharpRight, Right, SlightRight, Straight, SlightLeft, Left,
SharpLeft is recovered from the source's mirrored_modifiers table together
with the involution map of section 4.C10. -/
abbrev DirectionModifier := Fin 8

def DirectionModifier.UTurn : DirectionModifier := 0
def DirectionModifier.SharpRight : DirectionModifier := 1
def DirectionModifier.Right : DirectionModifier := 2
def DirectionModifier.SlightRight : DirectionModifier := 3
def DirectionModifier.Straight : DirectionModifier := 4
def DirectionModifier.SlightLeft : DirectionModifier := 5
def DirectionModifier.Left : DirectionModifier := 6
def DirectionModifier.SharpLeft : DirectionModifier := 7

/-- TurnInstruction: the turn type is opaque to the analysed code and kept as
a bare number. -/
structure TurnInstruction where
  type : Nat
  direction_modifier : DirectionModifier
deriving DecidableEq, Repr

/-- ConnectedRoad of extractor/guidance/intersection.hpp. -/
structure ConnectedRoad extends IntersectionViewData where
  instruction : TurnInstruction
  lane_data_id : Nat
deriving DecidableEq, Repr

/-- The mirrored_modifiers table of ConnectedRoad::mirror. -/
def mirrored_modifiers : List DirectionModifier :=
  [DirectionModifier.UTurn, DirectionModifier.SharpLeft, DirectionModifier.Left,
   DirectionModifier.SlightLeft, DirectionModifier.Straight, DirectionModifier.SlightRight,
   DirectionModifier.Right, DirectionModifier.SharpRight]

/-- Static assert of intersection.cpp: the table matches the number of
available modifiers. -/
theorem mirrored_modifiers_length : mirrored_modifiers.length = 8 := rfl

/-- Indexing of the table by a direction modifier. -/
def mirrorModifier (d : DirectionModifier) : DirectionModifier :=
  mirrored_modifiers.getD d.val DirectionModifier.UTurn

/-- ConnectedRoad::mirror of intersection.cpp. -/
def ConnectedRoad.mirror (road : ConnectedRoad) : ConnectedRoad :=
  if machineEps < angularDeviation road.angle 0 then
    { road with
      angle := 360 - road.angle,
      instruction := { road.instruction with
        direction_modifier := mirrorModifier road.instruction.direction_modifier } }
  else road

/-- ConnectedRoad::getMirroredCopy of intersection.cpp: copy, then mirror the
copy. -/
def ConnectedRoad.getMirroredCopy (road : ConnectedRoad) : ConnectedRoad :=
  road.mirror

/-- Accumulator of the single pass of leastSquareRegression. -/
structure RegressionAcc where
  sum_lon : ℚ
  sum_lat : ℚ
  sum_lon_lat : ℚ
  sum_lon_lon : ℚ
  min_lon : ℚ
  max_lon : ℚ

/-- One loop iteration of leastSquareRegression. -/
def regressionStep (acc : RegressionAcc) (coord : Coordinate) : RegressionAcc :=
  { sum_lon := acc.sum_lon + coord.lon,
    sum_lat := acc.sum_lat + coord.lat,
    sum_lon_lat := acc.sum_lon_lat + coord.lon * coord.lat,
    sum_lon_lon := acc.sum_lon_lon + coord.lon * coord.lon,
    min_lon := min acc.min_lon coord.lon,
    max_lon := max acc.max_lon coord.lon }

/-- leastSquareRegression of include/extractor/guidance/toolkit.hpp; the
empty input, for which the source would read front() of an empty vector,
is mapped to none. -/
def leastSquareRegression (coordinates : List Coordinate) : Option (Coordinate × Coordinate) :=
  match coordinates with
  | [] => none
  | front :: rest =>
    let acc := (front :: rest).foldl regressionStep
      { sum_lon := 0, sum_lat := 0, sum_lon_lat := 0, sum_lon_lon := 0,
        min_lon := front.lon, max_lon := front.lon }
    let n : ℚ := (front :: rest).length
    let dividend := n * acc.sum_lon_lat - acc.sum_lon * acc.sum_lat
    let divisor := n * acc.sum_lon_lon - acc.sum_lon * acc.sum_lon
    if |divisor| < machineEps then
      some (front, rest.getLastD front)
    else
      let slope := dividend / divisor
      let intercept := (acc.sum_lat - slope * acc.sum_lon) / n
      some (⟨acc.min_lon - 1, intercept + slope * (acc.min_lon - 1)⟩,
            ⟨acc.max_lon + 1, intercept + slope * (acc.max_lon + 1)⟩)

/-- getLaneCountAtIntersection of include/extractor/guidance/toolkit.hpp. -/
def getLaneCountAtIntersection (g : NodeBasedDynamicGraph) (intersection_node : NodeID) : Nat :=
  (g.GetAdjacentEdgeRange intersection_node).foldl
    (fun lanes onto_edge => max lanes (g.GetEdgeData onto_edge).road_classification.num_lanes) 0

/-- One loop iteration of ComputeIntersectionShape: the shape entry pushed
for one edge adjacent to the intersection node. -/
def shapeEntry (gen : IntersectionGenerator) (node_at_center : NodeID)
    (intersection_degree intersection_lanes : Nat) (use_low_precision_angles : Bool)
    (edge_connected : EdgeID) : IntersectionShapeData :=
  let to_node := gen.node_based_graph.GetTarget edge_connected
  let turn_coordinate := gen.node_info_list node_at_center
  let coordinates :=
    gen.coordinate_extractor.GetCoordinatesAlongRoad node_at_center edge_connected false to_node
  let segment_length := getLength gen.haversineDistance coordinates
  let coordinate_along_edge_leaving :=
    if use_low_precision_angles || decide (intersection_degree ≤ 2) then
      gen.coordinate_extractor.GetCoordinateCloseToTurn node_at_center edge_connected false to_node
    else
      gen.coordinate_extractor.ExtractRepresentativeCoordinate node_at_center edge_connected
        false to_node intersection_lanes coordinates
  { eid := edge_connected,
    bearing := gen.bearing turn_coordinate coordinate_along_edge_leaving,
    segment_length := segment_length }

/-- Modelled from the spec, sections 3, 4.C5 and invariant 2 of section 8:
the comparator produced by makeCompareShapeDataByBearing (in
extractor/guidance/intersection.hpp, not among the given sources) orders the
shape clockwise starting from the base bearing on the turn circle of section
4.C1, so that a road pointing back at the base (its clockwise angle from the
base being 0 on that circle) leads and the shape is self-aligned to its first
entry when no sorting base is supplied. -/
def ShapeLe (base_bearing : ℚ) (a b : IntersectionShapeData) : Prop :=
  angleBetweenBearings base_bearing a.bearing ≤ angleBetweenBearings base_bearing b.bearing

instance (base_bearing : ℚ) : DecidableRel (ShapeLe base_bearing) :=
  fun _ _ => inferInstanceAs (Decidable (_ ≤ _))

instance (base_bearing : ℚ) : IsTotal IntersectionShapeData (ShapeLe base_bearing) :=
  ⟨fun _ _ => le_total _ _⟩

instance (base_bearing : ℚ) : IsTrans IntersectionShapeData (ShapeLe base_bearing) :=
  ⟨fun _ _ _ => le_trans⟩

/-- The base_bearing lambda of ComputeIntersectionShape: the reversed
bearing of the first entry targeting the sorting base when one is supplied
and found, the reversed bearing of the first shape entry otherwise. -/
def shapeBaseBearing (gen : IntersectionGenerator) (sorting_base : Option NodeID)
    (first : IntersectionShapeData) (shape : List IntersectionShapeData) : ℚ :=
  match sorting_base with
  | some sb =>
    match shape.find? (fun data => gen.node_based_graph.GetTarget data.eid == sb) with
    | some itr => reverseBearing itr.bearing
    | none => reverseBearing first.bearing
  | none => reverseBearing first.bearing

/-- IntersectionGenerator::ComputeIntersectionShape; std::sort is modelled as
a sorted permutation (insertion sort, which keeps the adjacency order of
entries whose comparator keys tie). -/
def ComputeIntersectionShape (gen : IntersectionGenerator)
    (node_at_center_of_intersection : NodeID) (sorting_base : Option NodeID)
    (use_low_precision_angles : Bool) : List IntersectionShapeData :=
  let adj := gen.node_based_graph.GetAdjacentEdgeRange node_at_center_of_intersection
  let intersection_degree := adj.length
  let intersection_lanes :=
    getLaneCountAtIntersection gen.node_based_graph node_at_center_of_intersection
  let shape := adj.map (shapeEntry gen node_at_center_of_intersection intersection_degree
    intersection_lanes use_low_precision_angles)
  match shape with
  | [] => []
  | first :: rest =>
    List.insertionSort (ShapeLe (shapeBaseBearing gen sorting_base first (first :: rest)))
      (first :: rest)

/-- The connect_to_previous_node lambda of TransformIntersectionShapeIntoView
(the view variant relies on slicing to the shape base and is the same
test). -/
def connectToPreviousNode (g : NodeBasedDynamicGraph) (previous_node : NodeID)
    (road : IntersectionShapeData) : Bool :=
  g.GetTarget road.eid == previous_node

def connectToPreviousNodeView (g : NodeBasedDynamicGraph) (previous_node : NodeID)
    (road : IntersectionViewData) : Bool :=
  g.GetTarget road.eid == previous_node

/-- IntersectionGenerator::GetOnlyAllowedTurnIfExistent. -/
def GetOnlyAllowedTurnIfExistent (gen : IntersectionGenerator)
    (coming_from_node node_at_intersection : NodeID) : Option NodeID :=
  let only_restriction_to_node :=
    gen.restriction_map.CheckForEmanatingIsOnlyTurn coming_from_node node_at_intersection
  if only_restriction_to_node != SPECIAL_NODEID &&
      (gen.node_based_graph.GetAdjacentEdgeRange node_at_intersection).any
        (fun onto_edge => gen.node_based_graph.GetTarget onto_edge == only_restriction_to_node)
  then some only_restriction_to_node
  else none

/-- The is_restricted lambda of TransformIntersectionShapeIntoView. -/
def is_restricted (gen : IntersectionGenerator)
    (previous_node node_at_intersection : NodeID) (only_valid_turn : Option NodeID)
    (destination : NodeID) : Bool :=
  (match only_valid_turn with
   | some only => only != destination
   | none => false) ||
  gen.restriction_map.CheckIfTurnIsRestricted previous_node node_at_intersection destination

/-- The is_allowed_turn lambda of TransformIntersectionShapeIntoView. -/
def is_allowed_turn (gen : IntersectionGenerator)
    (previous_node node_at_intersection : NodeID) (only_valid_turn : Option NodeID)
    (is_barrier_node : Bool) (road : IntersectionShapeData) : Bool :=
  let road_data := gen.node_based_graph.GetEdgeData road.eid
  let road_destination_node := gen.node_based_graph.GetTarget road.eid
  !road_data.reversed &&
  (!is_barrier_node || road_destination_node == previous_node) &&
  !(is_restricted gen previous_node node_at_intersection only_valid_turn road_destination_node)

/-- The uturn_bearing lambda of TransformIntersectionShapeIntoView; the two
BOOST_ASSERTed lookups into the normalised intersection are modelled as
none on failure. -/
def uturnBearing (gen : IntersectionGenerator) (previous_node : NodeID)
    (normalised_intersection : List IntersectionShapeData)
    (performed_merges : List (EdgeID × EdgeID)) (uturn_eid : EdgeID) : Option ℚ :=
  match performed_merges.find? (fun entry => entry.fst == uturn_eid) with
  | some merge_entry =>
    (normalised_intersection.find? (fun road => road.eid == merge_entry.snd)).map
      (fun merged_u_turn => reverseBearing merged_u_turn.bearing)
  | none =>
    (normalised_intersection.find? (connectToPreviousNode gen.node_based_graph previous_node)).map
      (fun road => reverseBearing road.bearing)

/-- The is_bidirectional lambda of the dead-end check: the reverse edge back
to the intersection exists and is not reversed. -/
def is_bidirectional (g : NodeBasedDynamicGraph) (node_at_intersection : NodeID)
    (entering_via_edge : EdgeID) : Bool :=
  match g.FindEdge (g.GetTarget entering_via_edge) node_at_intersection with
  | some reverse_edge => !(g.GetEdgeData reverse_edge).reversed
  | none => false

/-- The allow_uturn_at_dead_end lambda of TransformIntersectionShapeIntoView. -/
def allow_uturn_at_dead_end (gen : IntersectionGenerator)
    (previous_node node_at_intersection : NodeID) (only_valid_turn : Option NodeID)
    (uturn_eid : EdgeID) : Bool :=
  let uturn_data := gen.node_based_graph.GetEdgeData uturn_eid
  if uturn_data.reversed then false
  else if is_restricted gen previous_node node_at_intersection only_valid_turn previous_node then
    false
  else
    let bidirectional_edges :=
      ((gen.node_based_graph.GetAdjacentEdgeRange node_at_intersection).filter
        (fun eid => is_bidirectional gen.node_based_graph node_at_intersection eid)).length
    decide (bidirectional_edges ≤ 1)

/-- The transform step building one IntersectionViewData from one shape
entry. -/
def mkViewData (gen : IntersectionGenerator)
    (previous_node node_at_intersection : NodeID) (only_valid_turn : Option NodeID)
    (is_barrier_node : Bool) (uturn_b : ℚ) (road : IntersectionShapeData) :
    IntersectionViewData :=
  { toIntersectionShapeData := road,
    entry_allowed :=
      is_allowed_turn gen previous_node node_at_intersection only_valid_turn is_barrier_node road,
    angle := angleBetweenBearings uturn_b road.bearing }

/-- Assignment to the entry_allowed field of a view element. -/
def setEntryAllowed (value : Bool) (road : IntersectionViewData) : IntersectionViewData :=
  { road with entry_allowed := value }

/-- In-place update of the first view element satisfying p, as performed on
the u-turn slot through uturn_edge_at_intersection_view_itr. -/
def setFirstEntryAllowed (p : IntersectionViewData → Bool) (value : Bool) :
    List IntersectionViewData → List IntersectionViewData
  | [] => []
  | road :: roads =>
    if p road then setEntryAllowed value road :: roads
    else road :: setFirstEntryAllowed p value roads

/-- The dead-end u-turn policy block of TransformIntersectionShapeIntoView. -/
def applyDeadEndUturnPolicy (gen : IntersectionGenerator)
    (previous_node node_at_intersection : NodeID) (only_valid_turn : Option NodeID)
    (is_barrier_node : Bool) (uturn_eid : EdgeID)
    (view : List IntersectionViewData) : List IntersectionViewData :=
  match view.find? (connectToPreviousNodeView gen.node_based_graph previous_node) with
  | none => view
  | some uturn_slot =>
    let valid_count := (view.filter (fun road => road.entry_allowed)).length
    if (uturn_slot.entry_allowed && !is_barrier_node && valid_count != 1) ||
        valid_count == 0 then
      setFirstEntryAllowed (connectToPreviousNodeView gen.node_based_graph previous_node)
        (allow_uturn_at_dead_end gen previous_node node_at_intersection only_valid_turn uturn_eid)
        view
    else view

/-- Comparison by angle, IntersectionViewData::CompareByAngle. -/
def ViewLe (a b : IntersectionViewData) : Prop := a.angle ≤ b.angle

instance : DecidableRel ViewLe := fun _ _ => inferInstanceAs (Decidable (_ ≤ _))

instance : IsTotal IntersectionViewData ViewLe := ⟨fun _ _ => le_total _ _⟩

instance : IsTrans IntersectionViewData ViewLe := ⟨fun _ _ _ => le_trans⟩

/-- IntersectionGenerator::TransformIntersectionShapeIntoView (the five
argument overload); the BOOST_ASSERTed existence of the u-turn edge and of
the u-turn bearing lookup are modelled as none on failure, and std::sort as
a sorted permutation (insertion sort). -/
def TransformIntersectionShapeIntoView (gen : IntersectionGenerator)
    (previous_node : NodeID) (entering_via_edge : EdgeID)
    (normalised_intersection intersection : List IntersectionShapeData)
    (performed_merges : List (EdgeID × EdgeID)) : Option (List IntersectionViewData) :=
  let node_at_intersection := gen.node_based_graph.GetTarget entering_via_edge
  let only_valid_turn := GetOnlyAllowedTurnIfExistent gen previous_node node_at_intersection
  let is_barrier_node := gen.barrier_nodes node_at_intersection
  match intersection.find? (connectToPreviousNode gen.node_based_graph previous_node) with
  | none => none
  | some uturn_edge =>
    match uturnBearing gen previous_node normalised_intersection performed_merges
        uturn_edge.eid with
    | none => none
    | some uturn_b =>
      let intersection_view := normalised_intersection.map
        (mkViewData gen previous_node node_at_intersection only_valid_turn is_barrier_node
          uturn_b)
      let adjusted := applyDeadEndUturnPolicy gen previous_node node_at_intersection
        only_valid_turn is_barrier_node uturn_edge.eid intersection_view
      some (List.insertionSort ViewLe adjusted)

/-- The three argument overload of TransformIntersectionShapeIntoView: the
shape serves as both the normalised and the original intersection, with no
performed merges. -/
def TransformIntersectionShapeIntoViewSimple (gen : IntersectionGenerator)
    (previous_node : NodeID) (entering_via_edge : EdgeID)
    (intersection_shape : List IntersectionShapeData) : Option (List IntersectionViewData) :=
  TransformIntersectionShapeIntoView gen previous_node entering_via_edge
    intersection_shape intersection_shape []

/-- IntersectionGenerator::GetConnectedRoads. -/
def GetConnectedRoads (gen : IntersectionGenerator) (from_node : NodeID) (via_eid : EdgeID)
    (use_low_precision_angles : Bool) : Option (List IntersectionViewData) :=
  let intersection := ComputeIntersectionShape gen
    (gen.node_based_graph.GetTarget via_eid) none use_low_precision_angles
  TransformIntersectionShapeIntoViewSimple gen from_node via_eid intersection

/-- The get_next_edge lambda of GetActualNextIntersection: on a degree-two
node, the outgoing edge that does not loop back to the previous node. -/
def get_next_edge (g : NodeBasedDynamicGraph) (from_node : NodeID) (via : EdgeID) : EdgeID :=
  let new_node := g.GetTarget via
  let begin_edges_new_node := g.BeginEdges new_node
  if g.GetTarget begin_edges_new_node == from_node then begin_edges_new_node + 1
  else begin_edges_new_node

/-- The skip loop of GetActualNextIntersection.  The C++ while loop is
modelled with explicit fuel, returning none when the fuel is exhausted
mid-loop; the termination theorem shows that numNodes + 1 units of fuel
always suffice, since each iteration inserts the pre-advance query node,
which the guard has just found unvisited, into the visited set. -/
def skipDeadEndLoop (g : NodeBasedDynamicGraph) (starting_node : NodeID) :
    Nat → List NodeID → NodeID → EdgeID → Option (NodeID × EdgeID)
  | 0, _, _, _ => none
  | fuel + 1, visited_nodes, query_node, query_edge =>
    if query_node ∉ visited_nodes ∧ g.GetOutDegree (g.GetTarget query_edge) = 2 then
      let next_node := g.GetTarget query_edge
      let next_edge := get_next_edge g query_node query_edge
      if !((g.GetEdgeData query_edge).IsCompatibleTo (g.GetEdgeData next_edge)) ||
          g.GetTarget next_edge == starting_node then
        some (query_node, query_edge)
      else
        skipDeadEndLoop g starting_node fuel (query_node :: visited_nodes) next_node next_edge
    else some (query_node, query_edge)

/-- IntersectionGenerator::GetActualNextIntersection: the resolved
(from_node, via_edge) pair together with the view of the first non-trivial
junction, obtained through the high-precision GetConnectedRoads. -/
def GetActualNextIntersection (gen : IntersectionGenerator) (starting_node : NodeID)
    (via_edge : EdgeID) :
    Option (NodeID × EdgeID × Option (List IntersectionViewData)) :=
  match skipDeadEndLoop gen.node_based_graph starting_node
      (gen.node_based_graph.numNodes + 1) [] starting_node via_edge with
  | none => none
  | some (query_node, query_edge) =>
    some (query_node, query_edge,
      GetConnectedRoads gen query_node query_edge USE_HIGH_PRECISION_MODE)

/-! Basic facts about the angle arithmetic. -/

theorem normBearing_nonneg (x : ℚ) : 0 ≤ normBearing x := by
  have h := Int.floor_le (x / 360)
  unfold normBearing
  nlinarith

theorem normBearing_lt (x : ℚ) : normBearing x < 360 := by
  have h := Int.lt_floor_add_one (x / 360)
  unfold normBearing
  nlinarith

theorem normBearing_intMul (k : ℤ) : normBearing (360 * (k : ℚ)) = 0 := by
  unfold normBearing
  have h : (360 * (k : ℚ)) / 360 = (k : ℚ) := by ring
  rw [h, Int.floor_intCast]
  ring

/-- The angle of a road whose bearing is the one the u-turn bearing was
reversed from is exactly zero. -/
theorem angleBetweenBearings_reverse_self (b : ℚ) :
    angleBetweenBearings (reverseBearing b) b = 0 := by
  have h : b - reverseBearing b + 180 = 360 * ((⌊(b + 180) / 360⌋ : ℤ) : ℚ) := by
    unfold reverseBearing normBearing
    ring
  unfold angleBetweenBearings
  rw [h, normBearing_intMul]

theorem angleBetweenBearings_nonneg (a b : ℚ) : 0 ≤ angleBetweenBearings a b :=
  normBearing_nonneg _

theorem angleBetweenBearings_lt (a b : ℚ) : angleBetweenBearings a b < 360 :=
  normBearing_lt _

/-! Facts about the mirror transform. -/

theorem mirrorModifier_involution : ∀ d : DirectionModifier,
    mirrorModifier (mirrorModifier d) = d := by
  decide

theorem mirror_of_fire {road : ConnectedRoad}
    (h : machineEps < angularDeviation road.angle 0) :
    road.mirror =
      { road with
        angle := 360 - road.angle,
        instruction := { road.instruction with
          direction_modifier := mirrorModifier road.instruction.direction_modifier } } := by
  unfold ConnectedRoad.mirror
  rw [if_pos h]

theorem mirror_of_skip {road : ConnectedRoad}
    (h : ¬ machineEps < angularDeviation road.angle 0) : road.mirror = road := by
  unfold ConnectedRoad.mirror
  rw [if_neg h]

theorem angularDeviation_zero_eq {a : ℚ} (h0 : 0 ≤ a) :
    angularDeviation a 0 = min a (360 - a) := by
  unfold angularDeviation
  rw [sub_zero, abs_of_nonneg h0]

/-- C10: ConnectedRoad::mirror modifies at most the angle and the direction
modifier: eid, bearing, segment length, entry_allowed, lane_data_id and the
instruction type are untouched, and getMirroredCopy is exactly the mirror of
a copy (the embedding is pure, so the original road is untouched by
construction). -/
theorem mirror_frame (road : ConnectedRoad) :
    road.mirror.eid = road.eid ∧ road.mirror.bearing = road.bearing ∧
    road.mirror.segment_length = road.segment_length ∧
    road.mirror.entry_allowed = road.entry_allowed ∧
    road.mirror.lane_data_id = road.lane_data_id ∧
    road.mirror.instruction.type = road.instruction.type ∧
    road.getMirroredCopy = road.mirror := by
  refine ⟨?_, ?_, ?_, ?_, ?_, ?_, rfl⟩ <;>
    (unfold ConnectedRoad.mirror; split <;> simp)

/-- C8: on a road whose angle lies in [0, 360), mirror is an involution (the
angle and the direction modifier are restored exactly, hence in particular
within epsilon), and a road whose angular deviation from 0 is within machine
epsilon (the u-turn entry) is left unchanged by a single mirror. -/
theorem mirror_involution (road : ConnectedRoad) (h0 : 0 ≤ road.angle)
    (h1 : road.angle < 360) :
    road.mirror.mirror = road ∧
    (angularDeviation road.angle 0 ≤ machineEps → road.mirror = road) := by
  constructor
  · by_cases h : machineEps < angularDeviation road.angle 0
    · have hboth : machineEps < road.angle ∧ machineEps < 360 - road.angle := by
        rw [angularDeviation_zero_eq h0, lt_min_iff] at h
        exact h
      have h2 : machineEps < angularDeviation (360 - road.angle) 0 := by
        rw [angularDeviation_zero_eq (by linarith), lt_min_iff]
        constructor
        · exact hboth.2
        · have : 360 - (360 - road.angle) = road.angle := by ring
          rw [this]
          exact hboth.1
      rw [mirror_of_fire h]
      rw [mirror_of_fire (by simpa using h2)]
      obtain ⟨⟨⟨eid, br, seg⟩, al, a⟩, ⟨ty, dm⟩, ld⟩ := road
      simp_all [mirrorModifier_involution]
      try ring
    · rw [mirror_of_skip h, mirror_of_skip h]
  · intro hle
    exact mirror_of_skip (not_lt.mpr hle)

/-- Concrete road used by the mirror witness: a right turn at angle 270. -/
def witnessRoad8 : ConnectedRoad :=
  { eid := 3, bearing := 90, segment_length := 25, entry_allowed := true, angle := 270,
    instruction := { type := 1, direction_modifier := DirectionModifier.Right },
    lane_data_id := 0 }

/-- Witness for C8 at a concrete road: a right turn at angle 270. -/
theorem mirror_involution_witness :
    (0 ≤ (witnessRoad8).angle ∧ (witnessRoad8).angle < 360) ∧
    ((witnessRoad8).mirror.mirror = witnessRoad8 ∧
      (angularDeviation (witnessRoad8).angle 0 ≤ machineEps →
        (witnessRoad8).mirror = witnessRoad8)) :=
  ⟨⟨by norm_num [witnessRoad8], by norm_num [witnessRoad8]⟩,
    mirror_involution witnessRoad8 (by norm_num [witnessRoad8])
      (by norm_num [witnessRoad8])⟩

/-- C6: GetOnlyAllowedTurnIfExistent returns some X exactly when the
restriction index reports the non-sentinel only-turn target X and some edge
adjacent to the intersection node still targets X; a reported target that is
no longer adjacent is silently dropped (none), no error being raised. -/
theorem only_allowed_turn_characterization (gen : IntersectionGenerator)
    (coming_from_node node_at_intersection X : NodeID) :
    GetOnlyAllowedTurnIfExistent gen coming_from_node node_at_intersection = some X ↔
      (gen.restriction_map.CheckForEmanatingIsOnlyTurn coming_from_node node_at_intersection
          = X ∧
        X ≠ SPECIAL_NODEID ∧
        ∃ onto_edge ∈ gen.node_based_graph.GetAdjacentEdgeRange node_at_intersection,
          gen.node_based_graph.GetTarget onto_edge = X) := by
  unfold GetOnlyAllowedTurnIfExistent
  simp only []
  split
  case isTrue hc =>
    simp only [Bool.and_eq_true, bne_iff_ne, List.any_eq_true, beq_iff_eq] at hc
    constructor
    · rintro ⟨rfl⟩
      exact ⟨rfl, hc.1, hc.2⟩
    · rintro ⟨h1, -, -⟩
      rw [h1]
  case isFalse hc =>
    constructor
    · intro h
      exact absurd h (by simp)
    · rintro ⟨h1, h2, e, he, hte⟩
      exfalso
      apply hc
      simp only [Bool.and_eq_true, bne_iff_ne, List.any_eq_true, beq_iff_eq]
      exact ⟨h1 ▸ h2, e, he, h1 ▸ hte⟩

/-! Least-squares regression: refinement against the specification text. -/

/-- Modelled from the spec, section 4.C2 (the specification side of the C7
refinement): slope and intercept from the closed sum formulas, the
first/last pair verbatim on a near-zero divisor, synthetic endpoints at
min_lon - 1 and max_lon + 1 on the regression line otherwise. -/
def leastSquareRegressionSpec (coordinates : List Coordinate) :
    Option (Coordinate × Coordinate) :=
  match coordinates with
  | [] => none
  | front :: rest =>
    let lons := (front :: rest).map Coordinate.lon
    let n : ℚ := (front :: rest).length
    let sum_lon := lons.sum
    let sum_lat := ((front :: rest).map Coordinate.lat).sum
    let sum_lon_lat := ((front :: rest).map (fun c => c.lon * c.lat)).sum
    let sum_lon_lon := (lons.map (fun x => x * x)).sum
    let divisor := n * sum_lon_lon - sum_lon * sum_lon
    if |divisor| < machineEps then
      some (front, rest.getLastD front)
    else
      let slope := (n * sum_lon_lat - sum_lon * sum_lat) / divisor
      let intercept := (sum_lat - slope * sum_lon) / n
      let min_lon := lons.foldr min front.lon
      let max_lon := lons.foldr max front.lon
      some (⟨min_lon - 1, intercept + slope * (min_lon - 1)⟩,
            ⟨max_lon + 1, intercept + slope * (max_lon + 1)⟩)

theorem foldr_min_swap (l : List ℚ) (a b : ℚ) :
    l.foldr min (min a b) = min b (l.foldr min a) := by
  induction l with
  | nil => exact min_comm a b
  | cons x t ih => simp [List.foldr_cons, ih, min_left_comm]

theorem foldr_max_swap (l : List ℚ) (a b : ℚ) :
    l.foldr max (max a b) = max b (l.foldr max a) := by
  induction l with
  | nil => exact max_comm a b
  | cons x t ih => simp [List.foldr_cons, ih, max_left_comm]

/-- The single accumulator pass of the source computes the five closed sums
and the longitude extrema. -/
theorem regressionAcc_spec (l : List Coordinate) (acc : RegressionAcc) :
    l.foldl regressionStep acc =
      { sum_lon := acc.sum_lon + (l.map Coordinate.lon).sum,
        sum_lat := acc.sum_lat + (l.map Coordinate.lat).sum,
        sum_lon_lat := acc.sum_lon_lat + (l.map (fun c => c.lon * c.lat)).sum,
        sum_lon_lon := acc.sum_lon_lon + ((l.map Coordinate.lon).map (fun x => x * x)).sum,
        min_lon := (l.map Coordinate.lon).foldr min acc.min_lon,
        max_lon := (l.map Coordinate.lon).foldr max acc.max_lon } := by
  induction l generalizing acc with
  | nil => simp
  | cons c t ih =>
    rw [List.foldl_cons, ih]
    simp only [regressionStep, List.map_cons, List.sum_cons, List.foldr_cons,
      RegressionAcc.mk.injEq]
    refine ⟨by ring, by ring, by ring, by ring, ?_, ?_⟩
    · exact foldr_min_swap _ _ _
    · exact foldr_max_swap _ _ _

/-- C7: the one-pass implementation of leastSquareRegression agrees with the
closed-formula specification on every input of at least two coordinates. -/
theorem leastSquareRegression_spec (coordinates : List Coordinate)
    (h : 2 ≤ coordinates.length) :
    leastSquareRegression coordinates = leastSquareRegressionSpec coordinates := by
  cases coordinates with
  | nil => simp at h
  | cons front rest =>
    unfold leastSquareRegression leastSquareRegressionSpec
    simp only []
    rw [regressionAcc_spec]
    simp only [zero_add]

/-- Witness for C7 at the concrete polyline (0,0), (1,1), (2,2). -/
theorem leastSquareRegression_spec_witness :
    2 ≤ ([⟨0, 0⟩, ⟨1, 1⟩, ⟨2, 2⟩] : List Coordinate).length ∧
      leastSquareRegression [⟨0, 0⟩, ⟨1, 1⟩, ⟨2, 2⟩] =
        leastSquareRegressionSpec [⟨0, 0⟩, ⟨1, 1⟩, ⟨2, 2⟩] :=
  ⟨by decide, leastSquareRegression_spec _ (by decide)⟩

/-! Termination of the dead-end skip walker. -/

/-- Fuel sufficiency for the skip loop: every iteration inserts the
pre-advance query node, which the guard has just found unvisited, into the
visited set, so as long as all nodes are within the graph the loop runs at
most numNodes times before its guard or one of its break conditions stops
it. -/
theorem skipDeadEndLoop_isSome (g : NodeBasedDynamicGraph) (starting_node : NodeID)
    (htgt : ∀ e, g.GetTarget e < g.numNodes) :
    ∀ (fuel : Nat) (visited : List NodeID) (query_node : NodeID) (query_edge : EdgeID),
      visited.Nodup → (∀ x ∈ visited, x < g.numNodes) → query_node < g.numNodes →
      g.numNodes + 1 ≤ visited.length + fuel →
      (skipDeadEndLoop g starting_node fuel visited query_node query_edge).isSome := by
  intro fuel
  induction fuel with
  | zero =>
    intro visited query_node query_edge hnd hb hq hlen
    exfalso
    have h1 : visited.toFinset ⊆ Finset.range g.numNodes := by
      intro x hx
      rw [List.mem_toFinset] at hx
      exact Finset.mem_range.mpr (hb x hx)
    have h2 := Finset.card_le_card h1
    rw [List.toFinset_card_of_nodup hnd, Finset.card_range] at h2
    omega
  | succ fuel ih =>
    intro visited query_node query_edge hnd hb hq hlen
    unfold skipDeadEndLoop
    split
    case isTrue hcond =>
      simp only []
      split
      · simp
      · apply ih (query_node :: visited) (g.GetTarget query_edge)
          (get_next_edge g query_node query_edge)
          (List.nodup_cons.mpr ⟨hcond.1, hnd⟩)
        · intro x hx
          rcases List.mem_cons.mp hx with rfl | hx
          · exact hq
          · exact hb x hx
        · exact htgt _
        · simp only [List.length_cons]
          omega
    case isFalse => simp

/-- C9: GetActualNextIntersection terminates on every finite graph: with the
standard fuel numNodes + 1 the skip loop never runs out, because the visited
set, keyed by the pre-advance query node, grows by one unvisited node per
iteration, and the loop additionally stops on an incompatible continuation
or one leading back to the starting node. -/
theorem get_actual_next_intersection_terminates (gen : IntersectionGenerator)
    (starting_node : NodeID) (via_edge : EdgeID)
    (htgt : ∀ e, gen.node_based_graph.GetTarget e < gen.node_based_graph.numNodes)
    (hstart : starting_node < gen.node_based_graph.numNodes) :
    (GetActualNextIntersection gen starting_node via_edge).isSome := by
  unfold GetActualNextIntersection
  have h := skipDeadEndLoop_isSome gen.node_based_graph starting_node htgt
    (gen.node_based_graph.numNodes + 1) [] starting_node via_edge (by simp) (by simp)
    hstart (by simp)
  rcases hsome : skipDeadEndLoop gen.node_based_graph starting_node
      (gen.node_based_graph.numNodes + 1) [] starting_node via_edge with - | ⟨qn, qe⟩
  · rw [hsome] at h
    simp at h
  · simp

/-- Shared concrete edge payload for the witness scenarios. -/
def witnessEdgeData : EdgeData :=
  { reversed := false, road_classification := { num_lanes := 1, payload := 0 } }

/-- Concrete four-node chain 0 - 1 - 2 - 3 whose middle nodes have degree
two: edges 0:(0 to 1), 1:(1 to 0), 2:(1 to 2), 3:(2 to 1), 4:(2 to 3),
5:(3 to 2). -/
def witnessGraph9 : NodeBasedDynamicGraph :=
  { numNodes := 4,
    GetTarget := fun e =>
      if e = 0 then 1 else if e = 1 then 0 else if e = 2 then 2
      else if e = 3 then 1 else if e = 4 then 3 else if e = 5 then 2 else 0,
    GetAdjacentEdgeRange := fun n =>
      if n = 0 then [0] else if n = 1 then [1, 2] else if n = 2 then [3, 4]
      else if n = 3 then [5] else [],
    BeginEdges := fun n =>
      if n = 0 then 0 else if n = 1 then 1 else if n = 2 then 3
      else if n = 3 then 5 else 0,
    GetEdgeData := fun _ => witnessEdgeData }

theorem witnessGraph9_targets :
    ∀ e, witnessGraph9.GetTarget e < witnessGraph9.numNodes := by
  intro e
  show (if e = 0 then 1 else if e = 1 then 0 else if e = 2 then 2
    else if e = 3 then 1 else if e = 4 then 3 else if e = 5 then 2 else 0) < 4
  split_ifs <;> norm_num

/-- Concrete generator over witnessGraph9 with trivial collaborators. -/
def witnessGen9 : IntersectionGenerator :=
  { node_based_graph := witnessGraph9,
    restriction_map :=
      { CheckIfTurnIsRestricted := fun _ _ _ => false,
        CheckForEmanatingIsOnlyTurn := fun _ _ => SPECIAL_NODEID },
    barrier_nodes := fun _ => false,
    node_info_list := fun n => ⟨n, 0⟩,
    coordinate_extractor :=
      { GetCoordinatesAlongRoad := fun _ _ _ to_node => [⟨0, 0⟩, ⟨to_node, 1⟩],
        GetCoordinateCloseToTurn := fun _ _ _ to_node => ⟨to_node, 1⟩,
        ExtractRepresentativeCoordinate := fun _ _ _ to_node _ _ => ⟨to_node, 1⟩ },
    bearing := fun _ b => 10 * b.lon + 100 * b.lat,
    haversineDistance := fun _ _ => 1 }

/-- Witness for C9 on the concrete chain, entering at node 0 via edge 0. -/
theorem get_actual_next_intersection_terminates_witness :
    ((∀ e, witnessGen9.node_based_graph.GetTarget e < witnessGen9.node_based_graph.numNodes) ∧
      0 < witnessGen9.node_based_graph.numNodes) ∧
    (GetActualNextIntersection witnessGen9 0 0).isSome :=
  ⟨⟨witnessGraph9_targets, by decide⟩,
    get_actual_next_intersection_terminates witnessGen9 0 0 witnessGraph9_targets (by decide)⟩

/-! List helpers for the view transform. -/

theorem find?_eq_head_filter {α : Type} (p : α → Bool) (l : List α) :
    l.find? p = (l.filter p).head? := by
  induction l with
  | nil => rfl
  | cons a t ih =>
    by_cases h : p a
    · rw [List.find?_cons_of_pos _ h, List.filter_cons_of_pos h, List.head?_cons]
    · rw [List.find?_cons_of_neg _ h, List.filter_cons_of_neg h, ih]

theorem mem_setFirstEntryAllowed {p : IntersectionViewData → Bool} {value : Bool} :
    ∀ {l : List IntersectionViewData} {r : IntersectionViewData},
      r ∈ setFirstEntryAllowed p value l →
      r ∈ l ∨ ∃ r₀ ∈ l, p r₀ = true ∧ r = setEntryAllowed value r₀ := by
  intro l
  induction l with
  | nil => intro r h; simp [setFirstEntryAllowed] at h
  | cons road roads ih =>
    intro r h
    unfold setFirstEntryAllowed at h
    by_cases hp : p road
    · rw [if_pos hp] at h
      rcases List.mem_cons.mp h with h | h
      · exact Or.inr ⟨road, List.mem_cons_self road roads, hp, h⟩
      · exact Or.inl (List.mem_cons_of_mem _ h)
    · rw [if_neg hp] at h
      rcases List.mem_cons.mp h with h | h
      · exact Or.inl (h ▸ List.mem_cons_self road roads)
      · rcases ih h with h | ⟨r₀, hr₀, hpr₀, hr⟩
        · exact Or.inl (List.mem_cons_of_mem _ h)
        · exact Or.inr ⟨r₀, List.mem_cons_of_mem _ hr₀, hpr₀, hr⟩

theorem setFirstEntryAllowed_exists_angle {p : IntersectionViewData → Bool} {value : Bool} :
    ∀ {l : List IntersectionViewData} {x : IntersectionViewData}, x ∈ l →
      ∃ y ∈ setFirstEntryAllowed p value l, y.angle = x.angle := by
  intro l
  induction l with
  | nil => intro x h; simp at h
  | cons road roads ih =>
    intro x h
    unfold setFirstEntryAllowed
    by_cases hp : p road
    · rw [if_pos hp]
      rcases List.mem_cons.mp h with rfl | h
      · exact ⟨setEntryAllowed value x, List.mem_cons_self _ _, rfl⟩
      · exact ⟨x, List.mem_cons_of_mem _ h, rfl⟩
    · rw [if_neg hp]
      rcases List.mem_cons.mp h with rfl | h
      · exact ⟨x, List.mem_cons_self _ _, rfl⟩
      · rcases ih h with ⟨y, hy, hangle⟩
        exact ⟨y, List.mem_cons_of_mem _ hy, hangle⟩

theorem filter_setFirstEntryAllowed {p : IntersectionViewData → Bool} {value : Bool}
    (hp : ∀ r : IntersectionViewData, p (setEntryAllowed value r) = p r) :
    ∀ l : List IntersectionViewData,
      (setFirstEntryAllowed p value l).filter p =
        match l.filter p with
        | [] => []
        | x :: xs => setEntryAllowed value x :: xs := by
  intro l
  induction l with
  | nil => rfl
  | cons road roads ih =>
    unfold setFirstEntryAllowed
    by_cases hpr : p road
    · rw [if_pos hpr, List.filter_cons_of_pos (by rw [hp]; exact hpr),
        List.filter_cons_of_pos hpr]
    · rw [if_neg hpr, List.filter_cons_of_neg hpr, List.filter_cons_of_neg hpr, ih]

/-- Elements of the dead-end adjusted view are elements of the incoming view
up to the entry_allowed flag of the modified slot. -/
theorem mem_applyDeadEndUturnPolicy {gen : IntersectionGenerator}
    {previous_node node_at_intersection : NodeID} {only_valid_turn : Option NodeID}
    {is_barrier_node : Bool} {uturn_eid : EdgeID} {view : List IntersectionViewData}
    {r : IntersectionViewData}
    (h : r ∈ applyDeadEndUturnPolicy gen previous_node node_at_intersection only_valid_turn
      is_barrier_node uturn_eid view) :
    r ∈ view ∨ ∃ r₀ ∈ view,
      connectToPreviousNodeView gen.node_based_graph previous_node r₀ = true ∧
      r = setEntryAllowed (allow_uturn_at_dead_end gen previous_node node_at_intersection
        only_valid_turn uturn_eid) r₀ := by
  unfold applyDeadEndUturnPolicy at h
  split at h
  · exact Or.inl h
  · simp only [] at h
    split at h
    · exact mem_setFirstEntryAllowed h
    · exact Or.inl h

/-- Every element of the incoming view has an equal-angle element in the
dead-end adjusted view. -/
theorem applyDeadEndUturnPolicy_exists_angle {gen : IntersectionGenerator}
    {previous_node node_at_intersection : NodeID} {only_valid_turn : Option NodeID}
    {is_barrier_node : Bool} {uturn_eid : EdgeID} {view : List IntersectionViewData}
    {x : IntersectionViewData} (h : x ∈ view) :
    ∃ y ∈ applyDeadEndUturnPolicy gen previous_node node_at_intersection only_valid_turn
      is_barrier_node uturn_eid view, y.angle = x.angle := by
  unfold applyDeadEndUturnPolicy
  split
  · exact ⟨x, h, rfl⟩
  · simp only []
    split
    · exact setFirstEntryAllowed_exists_angle h
    · exact ⟨x, h, rfl⟩

/-- Successful runs of the transform, unfolded. -/
theorem transform_eq_some_iff (gen : IntersectionGenerator) (previous_node : NodeID)
    (entering_via_edge : EdgeID)
    (normalised_intersection intersection : List IntersectionShapeData)
    (performed_merges : List (EdgeID × EdgeID)) (view : List IntersectionViewData) :
    TransformIntersectionShapeIntoView gen previous_node entering_via_edge
        normalised_intersection intersection performed_merges = some view ↔
      ∃ uturn_edge,
        intersection.find? (connectToPreviousNode gen.node_based_graph previous_node) =
          some uturn_edge ∧
        ∃ uturn_b,
          uturnBearing gen previous_node normalised_intersection performed_merges
            uturn_edge.eid = some uturn_b ∧
          view = List.insertionSort ViewLe
            (applyDeadEndUturnPolicy gen previous_node
              (gen.node_based_graph.GetTarget entering_via_edge)
              (GetOnlyAllowedTurnIfExistent gen previous_node
                (gen.node_based_graph.GetTarget entering_via_edge))
              (gen.node_based_graph.GetTarget entering_via_edge |> gen.barrier_nodes)
              uturn_edge.eid
              (normalised_intersection.map
                (mkViewData gen previous_node
                  (gen.node_based_graph.GetTarget entering_via_edge)
                  (GetOnlyAllowedTurnIfExistent gen previous_node
                    (gen.node_based_graph.GetTarget entering_via_edge))
                  (gen.node_based_graph.GetTarget entering_via_edge |> gen.barrier_nodes)
                  uturn_b))) := by
  unfold TransformIntersectionShapeIntoView
  simp only []
  split
  case h_1 hnone =>
    simp [hnone]
  case h_2 uturn_edge hfind =>
    split
    case h_1 hbnone =>
      constructor
      · intro h
        simp at h
      · rintro ⟨ue, hue, ub, hub, -⟩
        rw [hfind] at hue
        rcases hue with ⟨rfl⟩
        rw [hbnone] at hub
        simp at hub
    case h_2 uturn_b hb =>
      constructor
      · rintro ⟨rfl⟩
        exact ⟨uturn_edge, hfind, uturn_b, hb, rfl⟩
      · rintro ⟨ue, hue, ub, hub, hview⟩
        rw [hfind] at hue
        rcases hue with ⟨rfl⟩
        rw [hb] at hub
        rcases hub with ⟨rfl⟩
        rw [hview]

/-- A successful u-turn bearing lookup reverses the bearing of some road of
the normalised intersection. -/
theorem uturnBearing_exists {gen : IntersectionGenerator} {previous_node : NodeID}
    {normalised_intersection : List IntersectionShapeData}
    {performed_merges : List (EdgeID × EdgeID)} {uturn_eid : EdgeID} {uturn_b : ℚ}
    (h : uturnBearing gen previous_node normalised_intersection performed_merges uturn_eid =
      some uturn_b) :
    ∃ road ∈ normalised_intersection, uturn_b = reverseBearing road.bearing := by
  unfold uturnBearing at h
  split at h
  · rcases Option.map_eq_some'.mp h with ⟨road, hfind, hrev⟩
    exact ⟨road, List.mem_of_find?_eq_some hfind, hrev.symm⟩
  · rcases Option.map_eq_some'.mp h with ⟨road, hfind, hrev⟩
    exact ⟨road, List.mem_of_find?_eq_some hfind, hrev.symm⟩

theorem machineEps_pos : 0 < machineEps := by
  norm_num [machineEps]

/-- C1: every view returned by TransformIntersectionShapeIntoView (and hence
by GetConnectedRoads and GetActualNextIntersection, which call it) is sorted
ascending by angle and its first element's angle is at least 0 and within
machine epsilon of 0, the u-turn slot leading the list; the preconditions of
the claim (non-empty normalised intersection, pre-merge intersection holding
an edge back to previous_node) are exactly what makes the transform return a
view at all. -/
theorem transform_view_sorted_and_uturn_leads (gen : IntersectionGenerator)
    (previous_node : NodeID) (entering_via_edge : EdgeID)
    (normalised_intersection intersection : List IntersectionShapeData)
    (performed_merges : List (EdgeID × EdgeID)) (view : List IntersectionViewData)
    (h : TransformIntersectionShapeIntoView gen previous_node entering_via_edge
      normalised_intersection intersection performed_merges = some view) :
    List.Pairwise ViewLe view ∧
    ∃ first, view.head? = some first ∧ 0 ≤ first.angle ∧ first.angle < machineEps := by
  rcases (transform_eq_some_iff gen previous_node entering_via_edge normalised_intersection
      intersection performed_merges view).mp h with ⟨uturn_edge, hfind, uturn_b, hub, rfl⟩
  obtain ⟨road, hroad, rfl⟩ := uturnBearing_exists hub
  constructor
  · exact List.sorted_insertionSort ViewLe _
  · have hzero_mem :
        mkViewData gen previous_node (gen.node_based_graph.GetTarget entering_via_edge)
          (GetOnlyAllowedTurnIfExistent gen previous_node
            (gen.node_based_graph.GetTarget entering_via_edge))
          (gen.barrier_nodes (gen.node_based_graph.GetTarget entering_via_edge))
          (reverseBearing road.bearing) road ∈
        normalised_intersection.map
          (mkViewData gen previous_node (gen.node_based_graph.GetTarget entering_via_edge)
            (GetOnlyAllowedTurnIfExistent gen previous_node
              (gen.node_based_graph.GetTarget entering_via_edge))
            (gen.barrier_nodes (gen.node_based_graph.GetTarget entering_via_edge))
            (reverseBearing road.bearing)) :=
      List.mem_map_of_mem _ hroad
    obtain ⟨y, hy, hyangle⟩ := applyDeadEndUturnPolicy_exists_angle hzero_mem
    have hyzero : y.angle = 0 := by
      rw [hyangle]
      exact angleBetweenBearings_reverse_self road.bearing
    have hperm := List.perm_insertionSort ViewLe
      (applyDeadEndUturnPolicy gen previous_node
        (gen.node_based_graph.GetTarget entering_via_edge)
        (GetOnlyAllowedTurnIfExistent gen previous_node
          (gen.node_based_graph.GetTarget entering_via_edge))
        (gen.barrier_nodes (gen.node_based_graph.GetTarget entering_via_edge))
        uturn_edge.eid
        (normalised_intersection.map
          (mkViewData gen previous_node (gen.node_based_graph.GetTarget entering_via_edge)
            (GetOnlyAllowedTurnIfExistent gen previous_node
              (gen.node_based_graph.GetTarget entering_via_edge))
            (gen.barrier_nodes (gen.node_based_graph.GetTarget entering_via_edge))
            (reverseBearing road.bearing))))
    have hnneg : ∀ z ∈ applyDeadEndUturnPolicy gen previous_node
        (gen.node_based_graph.GetTarget entering_via_edge)
        (GetOnlyAllowedTurnIfExistent gen previous_node
          (gen.node_based_graph.GetTarget entering_via_edge))
        (gen.barrier_nodes (gen.node_based_graph.GetTarget entering_via_edge))
        uturn_edge.eid
        (normalised_intersection.map
          (mkViewData gen previous_node (gen.node_based_graph.GetTarget entering_via_edge)
            (GetOnlyAllowedTurnIfExistent gen previous_node
              (gen.node_based_graph.GetTarget entering_via_edge))
            (gen.barrier_nodes (gen.node_based_graph.GetTarget entering_via_edge))
            (reverseBearing road.bearing))), 0 ≤ z.angle := by
      intro z hz
      rcases mem_applyDeadEndUturnPolicy hz with hz0 | ⟨r₀, hr₀, -, rfl⟩
      · obtain ⟨road', -, rfl⟩ := List.mem_map.mp hz0
        exact angleBetweenBearings_nonneg _ _
      · obtain ⟨road', -, rfl⟩ := List.mem_map.mp hr₀
        exact angleBetweenBearings_nonneg _ _
    have hymem := hperm.mem_iff.mpr hy
    have hsorted := List.sorted_insertionSort ViewLe
      (applyDeadEndUturnPolicy gen previous_node
        (gen.node_based_graph.GetTarget entering_via_edge)
        (GetOnlyAllowedTurnIfExistent gen previous_node
          (gen.node_based_graph.GetTarget entering_via_edge))
        (gen.barrier_nodes (gen.node_based_graph.GetTarget entering_via_edge))
        uturn_edge.eid
        (normalised_intersection.map
          (mkViewData gen previous_node (gen.node_based_graph.GetTarget entering_via_edge)
            (GetOnlyAllowedTurnIfExistent gen previous_node
              (gen.node_based_graph.GetTarget entering_via_edge))
            (gen.barrier_nodes (gen.node_based_graph.GetTarget entering_via_edge))
            (reverseBearing road.bearing))))
    rcases hsort : List.insertionSort ViewLe
        (applyDeadEndUturnPolicy gen previous_node
          (gen.node_based_graph.GetTarget entering_via_edge)
          (GetOnlyAllowedTurnIfExistent gen previous_node
            (gen.node_based_graph.GetTarget entering_via_edge))
          (gen.barrier_nodes (gen.node_based_graph.GetTarget entering_via_edge))
          uturn_edge.eid
          (normalised_intersection.map
            (mkViewData gen previous_node (gen.node_based_graph.GetTarget entering_via_edge)
              (GetOnlyAllowedTurnIfExistent gen previous_node
                (gen.node_based_graph.GetTarget entering_via_edge))
              (gen.barrier_nodes (gen.node_based_graph.GetTarget entering_via_edge))
              (reverseBearing road.bearing)))) with - | ⟨first, tail⟩
    · rw [hsort] at hymem
      simp at hymem
    · rw [hsort] at hymem hsorted
      have hfmem : first ∈ first :: tail := List.mem_cons_self first tail
      have hfle : first.angle ≤ y.angle := by
        rcases List.mem_cons.mp hymem with rfl | hmem
        · exact le_refl _
        · exact List.rel_of_sorted_cons hsorted y hmem
      have hfnneg : 0 ≤ first.angle := by
        have : first ∈ List.insertionSort ViewLe _ := hsort ▸ hfmem
        exact hnneg first (hperm.mem_iff.mp this)
      refine ⟨first, rfl, hfnneg, ?_⟩
      have : first.angle ≤ 0 := hyzero ▸ hfle
      calc first.angle ≤ 0 := this
        _ < machineEps := machineEps_pos

theorem normBearing_eq_self {x : ℚ} (h0 : 0 ≤ x) (h1 : x < 360) : normBearing x = x := by
  unfold normBearing
  have hf : ⌊x / 360⌋ = 0 := by
    rw [Int.floor_eq_iff]
    constructor
    · positivity
    · push_cast
      linarith [div_lt_one (show (0:ℚ) < 360 by norm_num) |>.mpr h1]
  rw [hf]
  push_cast
  ring

theorem normBearing_eq_sub {x : ℚ} (h0 : 360 ≤ x) (h1 : x < 720) :
    normBearing x = x - 360 := by
  unfold normBearing
  have hf : ⌊x / 360⌋ = 1 := by
    rw [Int.floor_eq_iff]
    constructor
    · push_cast
      linarith
    · push_cast
      linarith
  rw [hf]
  push_cast
  ring

/-- C3: at a barrier node every road of the returned view that does not lead
back to previous_node has entry_allowed = false; the initial decision rejects
it and the dead-end re-decision only ever touches the slot leading back to
previous_node. -/
theorem barrier_blocks_non_uturn (gen : IntersectionGenerator)
    (previous_node : NodeID) (entering_via_edge : EdgeID)
    (normalised_intersection intersection : List IntersectionShapeData)
    (performed_merges : List (EdgeID × EdgeID)) (view : List IntersectionViewData)
    (h : TransformIntersectionShapeIntoView gen previous_node entering_via_edge
      normalised_intersection intersection performed_merges = some view)
    (hbar : gen.barrier_nodes (gen.node_based_graph.GetTarget entering_via_edge) = true) :
    ∀ r ∈ view, gen.node_based_graph.GetTarget r.eid ≠ previous_node →
      r.entry_allowed = false := by
  rcases (transform_eq_some_iff gen previous_node entering_via_edge normalised_intersection
      intersection performed_merges view).mp h with ⟨uturn_edge, hfind, uturn_b, hub, rfl⟩
  intro r hr hne
  have hradj := (List.perm_insertionSort ViewLe _).mem_iff.mp hr
  rcases mem_applyDeadEndUturnPolicy hradj with hz0 | ⟨r₀, hr₀, hp, rfl⟩
  · obtain ⟨road', -, rfl⟩ := List.mem_map.mp hz0
    show is_allowed_turn gen previous_node (gen.node_based_graph.GetTarget entering_via_edge)
      (GetOnlyAllowedTurnIfExistent gen previous_node
        (gen.node_based_graph.GetTarget entering_via_edge))
      (gen.barrier_nodes (gen.node_based_graph.GetTarget entering_via_edge)) road' = false
    have hne' : (gen.node_based_graph.GetTarget road'.eid == previous_node) = false := by
      rw [beq_eq_false_iff_ne]
      exact hne
    unfold is_allowed_turn
    rw [hbar]
    simp [hne']
  · unfold connectToPreviousNodeView at hp
    rw [beq_iff_eq] at hp
    exact absurd hp hne

/-- Concrete graph for the barrier scenario: node 1 (the junction, a barrier)
with edges 1:(1 to 0), 2:(1 to 2), 3:(1 to 3); edge 0 is (0 to 1), edges
4, 5 lead back to 1. -/
def witnessGraph1 : NodeBasedDynamicGraph :=
  { numNodes := 4,
    GetTarget := fun e =>
      if e = 0 then 1 else if e = 1 then 0 else if e = 2 then 2
      else if e = 3 then 3 else if e = 4 then 1 else if e = 5 then 1 else 0,
    GetAdjacentEdgeRange := fun n =>
      if n = 0 then [0] else if n = 1 then [1, 2, 3] else if n = 2 then [4]
      else if n = 3 then [5] else [],
    BeginEdges := fun n =>
      if n = 0 then 0 else if n = 1 then 1 else if n = 2 then 4
      else if n = 3 then 5 else 0,
    GetEdgeData := fun _ => witnessEdgeData }

/-- Concrete generator for the barrier scenario, node 1 being a barrier and
no restrictions applying. -/
def witnessGen1 : IntersectionGenerator :=
  { node_based_graph := witnessGraph1,
    restriction_map :=
      { CheckIfTurnIsRestricted := fun _ _ _ => false,
        CheckForEmanatingIsOnlyTurn := fun _ _ => SPECIAL_NODEID },
    barrier_nodes := fun n => n == 1,
    node_info_list := fun n => ⟨n, 0⟩,
    coordinate_extractor :=
      { GetCoordinatesAlongRoad := fun _ _ _ to_node => [⟨0, 0⟩, ⟨to_node, 1⟩],
        GetCoordinateCloseToTurn := fun _ _ _ to_node => ⟨to_node, 1⟩,
        ExtractRepresentativeCoordinate := fun _ _ _ to_node _ _ => ⟨to_node, 1⟩ },
    bearing := fun _ b => 10 * b.lon + 100 * b.lat,
    haversineDistance := fun _ _ => 1 }

/-- Shape at node 1 of witnessGraph1: the u-turn road back to 0 at bearing
180, plus roads to 2 and 3. -/
def witnessShape1 : List IntersectionShapeData :=
  [⟨1, 180, 10⟩, ⟨2, 0, 10⟩, ⟨3, 90, 10⟩]

/-- Expected view of the barrier scenario. -/
def witnessView1 : List IntersectionViewData :=
  [⟨⟨1, 180, 10⟩, true, 0⟩, ⟨⟨2, 0, 10⟩, false, 180⟩, ⟨⟨3, 90, 10⟩, false, 270⟩]

theorem normBearing_360 : normBearing 360 = 0 := by
  rw [show (360 : ℚ) = 360 * ((1 : ℤ) : ℚ) by norm_num]
  exact normBearing_intMul 1

/-- Evaluation of the barrier scenario. -/
theorem witnessGen1_transform_eval :
    TransformIntersectionShapeIntoView witnessGen1 0 0 witnessShape1 witnessShape1 [] =
      some witnessView1 := by
  norm_num [TransformIntersectionShapeIntoView, GetOnlyAllowedTurnIfExistent, uturnBearing,
    applyDeadEndUturnPolicy, mkViewData, is_allowed_turn, is_restricted, connectToPreviousNode,
    connectToPreviousNodeView, setFirstEntryAllowed, witnessGen1, witnessGraph1, witnessShape1,
    witnessView1, witnessEdgeData, SPECIAL_NODEID, ViewLe, angleBetweenBearings, reverseBearing,
    List.insertionSort, List.orderedInsert, normBearing_eq_self, normBearing_eq_sub,
    normBearing_360, allow_uturn_at_dead_end, is_bidirectional, NodeBasedDynamicGraph.FindEdge,
    List.find?, List.getD, List.getElem_cons_zero, List.getElem_cons_succ]

/-- Witness for C1 in the barrier scenario. -/
theorem transform_view_sorted_and_uturn_leads_witness :
    (TransformIntersectionShapeIntoView witnessGen1 0 0 witnessShape1 witnessShape1 [] =
      some witnessView1) ∧
    (List.Pairwise ViewLe witnessView1 ∧
      ∃ first, witnessView1.head? = some first ∧ 0 ≤ first.angle ∧ first.angle < machineEps) :=
  ⟨witnessGen1_transform_eval,
    transform_view_sorted_and_uturn_leads witnessGen1 0 0 witnessShape1 witnessShape1 []
      witnessView1 witnessGen1_transform_eval⟩

/-- Witness for C3 in the barrier scenario: the roads toward nodes 2 and 3
stay disallowed. -/
theorem barrier_blocks_non_uturn_witness :
    ((TransformIntersectionShapeIntoView witnessGen1 0 0 witnessShape1 witnessShape1 [] =
        some witnessView1) ∧
      witnessGen1.barrier_nodes (witnessGen1.node_based_graph.GetTarget 0) = true) ∧
    (∀ r ∈ witnessView1, witnessGen1.node_based_graph.GetTarget r.eid ≠ 0 →
      r.entry_allowed = false) :=
  ⟨⟨witnessGen1_transform_eval, by norm_num [witnessGen1, witnessGraph1]⟩,
    barrier_blocks_non_uturn witnessGen1 0 0 witnessShape1 witnessShape1 [] witnessView1
      witnessGen1_transform_eval (by norm_num [witnessGen1, witnessGraph1])⟩

theorem connectToPreviousNodeView_mkViewData (gen : IntersectionGenerator)
    (previous_node node_at_intersection : NodeID) (only_valid_turn : Option NodeID)
    (is_barrier_node : Bool) (uturn_b : ℚ) (road : IntersectionShapeData) :
    connectToPreviousNodeView gen.node_based_graph previous_node
        (mkViewData gen previous_node node_at_intersection only_valid_turn is_barrier_node
          uturn_b road) =
      connectToPreviousNode gen.node_based_graph previous_node road := rfl

theorem filter_connect_view_map (gen : IntersectionGenerator)
    (previous_node node_at_intersection : NodeID) (only_valid_turn : Option NodeID)
    (is_barrier_node : Bool) (uturn_b : ℚ) (l : List IntersectionShapeData) :
    (l.map (mkViewData gen previous_node node_at_intersection only_valid_turn is_barrier_node
        uturn_b)).filter (connectToPreviousNodeView gen.node_based_graph previous_node) =
      (l.filter (connectToPreviousNode gen.node_based_graph previous_node)).map
        (mkViewData gen previous_node node_at_intersection only_valid_turn is_barrier_node
          uturn_b) := by
  induction l with
  | nil => rfl
  | cons a t ih =>
    rw [List.map_cons]
    by_cases hp : connectToPreviousNode gen.node_based_graph previous_node a
    · rw [List.filter_cons_of_pos
        ((connectToPreviousNodeView_mkViewData gen previous_node node_at_intersection
          only_valid_turn is_barrier_node uturn_b a).trans hp),
        List.filter_cons_of_pos hp, List.map_cons, ih]
    · rw [List.filter_cons_of_neg
        (fun hc => hp ((connectToPreviousNodeView_mkViewData gen previous_node
          node_at_intersection only_valid_turn is_barrier_node uturn_b a).symm.trans hc)),
        List.filter_cons_of_neg hp, ih]

theorem filter_entry_view_map (gen : IntersectionGenerator)
    (previous_node node_at_intersection : NodeID) (only_valid_turn : Option NodeID)
    (is_barrier_node : Bool) (uturn_b : ℚ) (l : List IntersectionShapeData) :
    ((l.map (mkViewData gen previous_node node_at_intersection only_valid_turn is_barrier_node
        uturn_b)).filter (fun r => r.entry_allowed)).length =
      (l.filter (fun road => is_allowed_turn gen previous_node node_at_intersection
        only_valid_turn is_barrier_node road)).length := by
  induction l with
  | nil => rfl
  | cons a t ih =>
    rw [List.map_cons]
    by_cases hp : is_allowed_turn gen previous_node node_at_intersection only_valid_turn
      is_barrier_node a
    · have hpv : (fun r : IntersectionViewData => r.entry_allowed)
          (mkViewData gen previous_node node_at_intersection only_valid_turn is_barrier_node
            uturn_b a) = true := hp
      rw [List.filter_cons_of_pos hpv, List.filter_cons_of_pos hp, List.length_cons,
        List.length_cons, ih]
    · have hpv : ¬ (fun r : IntersectionViewData => r.entry_allowed)
          (mkViewData gen previous_node node_at_intersection only_valid_turn is_barrier_node
            uturn_b a) = true := hp
      rw [List.filter_cons_of_neg hpv, List.filter_cons_of_neg hp, ih]

/-- C2: the u-turn slot of the returned view is re-decided exactly under the
source's dead-end guard (view holds a road back to previous_node, and either
that slot is currently allowed at a non-barrier with an allowed-exit count
different from one, or no exit is allowed at all); when re-decided it takes
the value of allow_uturn_at_dead_end (no reversed u-turn edge, no restricted
turn back, at most one bidirectional adjacent edge), otherwise it keeps its
initial is_allowed_turn decision. -/
theorem uturn_dead_end_redecision (gen : IntersectionGenerator) (previous_node : NodeID)
    (entering_via_edge : EdgeID)
    (normalised_intersection intersection : List IntersectionShapeData)
    (performed_merges : List (EdgeID × EdgeID)) (view : List IntersectionViewData)
    (u uturn_edge : IntersectionShapeData)
    (h : TransformIntersectionShapeIntoView gen previous_node entering_via_edge
      normalised_intersection intersection performed_merges = some view)
    (hut : intersection.find? (connectToPreviousNode gen.node_based_graph previous_node) =
      some uturn_edge)
    (hu : normalised_intersection.find?
      (connectToPreviousNode gen.node_based_graph previous_node) = some u)
    (hcount : (normalised_intersection.filter
      (connectToPreviousNode gen.node_based_graph previous_node)).length = 1) :
    ∀ r ∈ view, gen.node_based_graph.GetTarget r.eid = previous_node →
      r.entry_allowed =
        (let node_at := gen.node_based_graph.GetTarget entering_via_edge
         let only_valid_turn := GetOnlyAllowedTurnIfExistent gen previous_node node_at
         let is_barrier_node := gen.barrier_nodes node_at
         let valid_count := (normalised_intersection.filter
           (fun road => is_allowed_turn gen previous_node node_at only_valid_turn
             is_barrier_node road)).length
         if (is_allowed_turn gen previous_node node_at only_valid_turn is_barrier_node u &&
               !is_barrier_node && valid_count != 1) || valid_count == 0 then
           allow_uturn_at_dead_end gen previous_node node_at only_valid_turn uturn_edge.eid
         else
           is_allowed_turn gen previous_node node_at only_valid_turn is_barrier_node u) := by
  rcases (transform_eq_some_iff gen previous_node entering_via_edge normalised_intersection
      intersection performed_merges view).mp h with ⟨ue, hfind, uturn_b, hub, rfl⟩
  rw [hut] at hfind
  rcases hfind with ⟨rfl⟩
  intro r hr htarget
  simp only []
  have hfilter_pn : normalised_intersection.filter
      (connectToPreviousNode gen.node_based_graph previous_node) = [u] := by
    have h1 : (normalised_intersection.filter
        (connectToPreviousNode gen.node_based_graph previous_node)).head? = some u := by
      rw [← find?_eq_head_filter]
      exact hu
    rcases hf : normalised_intersection.filter
        (connectToPreviousNode gen.node_based_graph previous_node) with - | ⟨x, xs⟩
    · rw [hf] at h1
      simp at h1
    · rw [hf] at h1 hcount
      simp only [List.head?_cons, Option.some.injEq] at h1
      have hxs : xs = [] := by
        rw [List.length_cons] at hcount
        exact List.length_eq_zero.mp (by omega)
      rw [h1, hxs]
  have hfv : (normalised_intersection.map
      (mkViewData gen previous_node (gen.node_based_graph.GetTarget entering_via_edge)
        (GetOnlyAllowedTurnIfExistent gen previous_node
          (gen.node_based_graph.GetTarget entering_via_edge))
        (gen.barrier_nodes (gen.node_based_graph.GetTarget entering_via_edge))
        uturn_b)).filter (connectToPreviousNodeView gen.node_based_graph previous_node) =
      [mkViewData gen previous_node (gen.node_based_graph.GetTarget entering_via_edge)
        (GetOnlyAllowedTurnIfExistent gen previous_node
          (gen.node_based_graph.GetTarget entering_via_edge))
        (gen.barrier_nodes (gen.node_based_graph.GetTarget entering_via_edge)) uturn_b u] := by
    rw [filter_connect_view_map, hfilter_pn, List.map_cons, List.map_nil]
  have hfind_v : (normalised_intersection.map
      (mkViewData gen previous_node (gen.node_based_graph.GetTarget entering_via_edge)
        (GetOnlyAllowedTurnIfExistent gen previous_node
          (gen.node_based_graph.GetTarget entering_via_edge))
        (gen.barrier_nodes (gen.node_based_graph.GetTarget entering_via_edge))
        uturn_b)).find? (connectToPreviousNodeView gen.node_based_graph previous_node) =
      some (mkViewData gen previous_node (gen.node_based_graph.GetTarget entering_via_edge)
        (GetOnlyAllowedTurnIfExistent gen previous_node
          (gen.node_based_graph.GetTarget entering_via_edge))
        (gen.barrier_nodes (gen.node_based_graph.GetTarget entering_via_edge)) uturn_b u) := by
    rw [find?_eq_head_filter, hfv, List.head?_cons]
  have hvc := filter_entry_view_map gen previous_node
    (gen.node_based_graph.GetTarget entering_via_edge)
    (GetOnlyAllowedTurnIfExistent gen previous_node
      (gen.node_based_graph.GetTarget entering_via_edge))
    (gen.barrier_nodes (gen.node_based_graph.GetTarget entering_via_edge)) uturn_b
    normalised_intersection
  have happly_filter : (applyDeadEndUturnPolicy gen previous_node
      (gen.node_based_graph.GetTarget entering_via_edge)
      (GetOnlyAllowedTurnIfExistent gen previous_node
        (gen.node_based_graph.GetTarget entering_via_edge))
      (gen.barrier_nodes (gen.node_based_graph.GetTarget entering_via_edge))
      uturn_edge.eid
      (normalised_intersection.map
        (mkViewData gen previous_node (gen.node_based_graph.GetTarget entering_via_edge)
          (GetOnlyAllowedTurnIfExistent gen previous_node
            (gen.node_based_graph.GetTarget entering_via_edge))
          (gen.barrier_nodes (gen.node_based_graph.GetTarget entering_via_edge))
          uturn_b))).filter (connectToPreviousNodeView gen.node_based_graph previous_node) =
      [if (is_allowed_turn gen previous_node (gen.node_based_graph.GetTarget entering_via_edge)
            (GetOnlyAllowedTurnIfExistent gen previous_node
              (gen.node_based_graph.GetTarget entering_via_edge))
            (gen.barrier_nodes (gen.node_based_graph.GetTarget entering_via_edge)) u &&
            !(gen.barrier_nodes (gen.node_based_graph.GetTarget entering_via_edge)) &&
            (normalised_intersection.filter
              (fun road => is_allowed_turn gen previous_node
                (gen.node_based_graph.GetTarget entering_via_edge)
                (GetOnlyAllowedTurnIfExistent gen previous_node
                  (gen.node_based_graph.GetTarget entering_via_edge))
                (gen.barrier_nodes (gen.node_based_graph.GetTarget entering_via_edge))
                road)).length != 1) ||
            (normalised_intersection.filter
              (fun road => is_allowed_turn gen previous_node
                (gen.node_based_graph.GetTarget entering_via_edge)
                (GetOnlyAllowedTurnIfExistent gen previous_node
                  (gen.node_based_graph.GetTarget entering_via_edge))
                (gen.barrier_nodes (gen.node_based_graph.GetTarget entering_via_edge))
                road)).length == 0 then
        setEntryAllowed
          (allow_uturn_at_dead_end gen previous_node
            (gen.node_based_graph.GetTarget entering_via_edge)
            (GetOnlyAllowedTurnIfExistent gen previous_node
              (gen.node_based_graph.GetTarget entering_via_edge)) uturn_edge.eid)
          (mkViewData gen previous_node (gen.node_based_graph.GetTarget entering_via_edge)
            (GetOnlyAllowedTurnIfExistent gen previous_node
              (gen.node_based_graph.GetTarget entering_via_edge))
            (gen.barrier_nodes (gen.node_based_graph.GetTarget entering_via_edge)) uturn_b u)
      else
        mkViewData gen previous_node (gen.node_based_graph.GetTarget entering_via_edge)
          (GetOnlyAllowedTurnIfExistent gen previous_node
            (gen.node_based_graph.GetTarget entering_via_edge))
          (gen.barrier_nodes (gen.node_based_graph.GetTarget entering_via_edge)) uturn_b u] := by
    unfold applyDeadEndUturnPolicy
    rw [hfind_v]
    simp only [hvc]
    have hea : (mkViewData gen previous_node (gen.node_based_graph.GetTarget entering_via_edge)
        (GetOnlyAllowedTurnIfExistent gen previous_node
          (gen.node_based_graph.GetTarget entering_via_edge))
        (gen.barrier_nodes (gen.node_based_graph.GetTarget entering_via_edge))
        uturn_b u).entry_allowed =
        is_allowed_turn gen previous_node (gen.node_based_graph.GetTarget entering_via_edge)
          (GetOnlyAllowedTurnIfExistent gen previous_node
            (gen.node_based_graph.GetTarget entering_via_edge))
          (gen.barrier_nodes (gen.node_based_graph.GetTarget entering_via_edge)) u := rfl
    rw [← hea]
    have hpset : ∀ r : IntersectionViewData,
        connectToPreviousNodeView gen.node_based_graph previous_node
          (setEntryAllowed (allow_uturn_at_dead_end gen previous_node
            (gen.node_based_graph.GetTarget entering_via_edge)
            (GetOnlyAllowedTurnIfExistent gen previous_node
              (gen.node_based_graph.GetTarget entering_via_edge)) uturn_edge.eid) r) =
        connectToPreviousNodeView gen.node_based_graph previous_node r := fun _ => rfl
    split
    case isTrue hg =>
      rw [filter_setFirstEntryAllowed hpset, hfv]
    case isFalse hg =>
      exact hfv
  have hperm := (List.perm_insertionSort ViewLe
    (applyDeadEndUturnPolicy gen previous_node
      (gen.node_based_graph.GetTarget entering_via_edge)
      (GetOnlyAllowedTurnIfExistent gen previous_node
        (gen.node_based_graph.GetTarget entering_via_edge))
      (gen.barrier_nodes (gen.node_based_graph.GetTarget entering_via_edge))
      uturn_edge.eid
      (normalised_intersection.map
        (mkViewData gen previous_node (gen.node_based_graph.GetTarget entering_via_edge)
          (GetOnlyAllowedTurnIfExistent gen previous_node
            (gen.node_based_graph.GetTarget entering_via_edge))
          (gen.barrier_nodes (gen.node_based_graph.GetTarget entering_via_edge))
          uturn_b)))).filter (connectToPreviousNodeView gen.node_based_graph previous_node)
  rw [happly_filter] at hperm
  have hsingle := List.perm_singleton.mp hperm
  have hpr : connectToPreviousNodeView gen.node_based_graph previous_node r = true := by
    unfold connectToPreviousNodeView
    rw [beq_iff_eq]
    exact htarget
  have hrmem : r ∈ List.filter (connectToPreviousNodeView gen.node_based_graph previous_node)
      (List.insertionSort ViewLe
        (applyDeadEndUturnPolicy gen previous_node
          (gen.node_based_graph.GetTarget entering_via_edge)
          (GetOnlyAllowedTurnIfExistent gen previous_node
            (gen.node_based_graph.GetTarget entering_via_edge))
          (gen.barrier_nodes (gen.node_based_graph.GetTarget entering_via_edge))
          uturn_edge.eid
          (normalised_intersection.map
            (mkViewData gen previous_node (gen.node_based_graph.GetTarget entering_via_edge)
              (GetOnlyAllowedTurnIfExistent gen previous_node
                (gen.node_based_graph.GetTarget entering_via_edge))
              (gen.barrier_nodes (gen.node_based_graph.GetTarget entering_via_edge))
              uturn_b)))) := List.mem_filter.mpr ⟨hr, hpr⟩
  rw [hsingle] at hrmem
  rcases List.mem_singleton.mp hrmem with rfl
  split <;> rfl

/-- Concrete graph for the dead-end re-decision scenario: a through road
0 - 1 - 2, all edges bidirectional; edges 0:(0 to 1), 2:(1 to 0),
3:(1 to 2), 4:(2 to 1). -/
def witnessGraph2 : NodeBasedDynamicGraph :=
  { numNodes := 4,
    GetTarget := fun e =>
      if e = 0 then 1 else if e = 2 then 0 else if e = 3 then 2
      else if e = 4 then 1 else 0,
    GetAdjacentEdgeRange := fun n =>
      if n = 0 then [0] else if n = 1 then [2, 3] else if n = 2 then [4] else [],
    BeginEdges := fun n =>
      if n = 0 then 0 else if n = 1 then 2 else if n = 2 then 4 else 0,
    GetEdgeData := fun _ => witnessEdgeData }

/-- Concrete generator over witnessGraph2, with no barrier and no
restrictions. -/
def witnessGen2 : IntersectionGenerator :=
  { node_based_graph := witnessGraph2,
    restriction_map :=
      { CheckIfTurnIsRestricted := fun _ _ _ => false,
        CheckForEmanatingIsOnlyTurn := fun _ _ => SPECIAL_NODEID },
    barrier_nodes := fun _ => false,
    node_info_list := fun n => ⟨n, 0⟩,
    coordinate_extractor :=
      { GetCoordinatesAlongRoad := fun _ _ _ to_node => [⟨0, 0⟩, ⟨to_node, 1⟩],
        GetCoordinateCloseToTurn := fun _ _ _ to_node => ⟨to_node, 1⟩,
        ExtractRepresentativeCoordinate := fun _ _ _ to_node _ _ => ⟨to_node, 1⟩ },
    bearing := fun _ b => 10 * b.lon + 100 * b.lat,
    haversineDistance := fun _ _ => 1 }

/-- Shape at node 1 of witnessGraph2. -/
def witnessShape2 : List IntersectionShapeData :=
  [⟨2, 180, 10⟩, ⟨3, 0, 10⟩]

/-- Expected view of the dead-end re-decision scenario: the u-turn is
re-decided to false because node 1 has two bidirectional edges. -/
def witnessView2 : List IntersectionViewData :=
  [⟨⟨2, 180, 10⟩, false, 0⟩, ⟨⟨3, 0, 10⟩, true, 180⟩]

/-- Evaluation of the dead-end re-decision scenario. -/
theorem witnessGen2_transform_eval :
    TransformIntersectionShapeIntoView witnessGen2 0 0 witnessShape2 witnessShape2 [] =
      some witnessView2 := by
  norm_num [TransformIntersectionShapeIntoView, GetOnlyAllowedTurnIfExistent, uturnBearing,
    applyDeadEndUturnPolicy, mkViewData, is_allowed_turn, is_restricted, connectToPreviousNode,
    connectToPreviousNodeView, setFirstEntryAllowed, setEntryAllowed, witnessGen2,
    witnessGraph2, witnessShape2, witnessView2, witnessEdgeData, SPECIAL_NODEID, ViewLe,
    angleBetweenBearings, reverseBearing, List.insertionSort, List.orderedInsert,
    normBearing_eq_self, normBearing_eq_sub, normBearing_360, allow_uturn_at_dead_end,
    is_bidirectional, NodeBasedDynamicGraph.FindEdge, NodeBasedDynamicGraph.GetOutDegree,
    List.find?]

theorem witnessShape2_find :
    witnessShape2.find? (connectToPreviousNode witnessGen2.node_based_graph 0) =
      some ⟨2, 180, 10⟩ := by
  norm_num [witnessShape2, List.find?, connectToPreviousNode, witnessGen2, witnessGraph2]

theorem witnessShape2_count :
    (witnessShape2.filter (connectToPreviousNode witnessGen2.node_based_graph 0)).length = 1 := by
  norm_num [witnessShape2, List.filter, connectToPreviousNode, witnessGen2, witnessGraph2,
    show ((2 : Nat) == 0) = false from rfl, show ((0 : Nat) == 0) = true from rfl]

/-- Witness for C2 on the through-road scenario: the u-turn slot is
re-decided (two allowed exits) and ends up disallowed (two bidirectional
adjacent edges). -/
theorem uturn_dead_end_redecision_witness :
    ((TransformIntersectionShapeIntoView witnessGen2 0 0 witnessShape2 witnessShape2 [] =
        some witnessView2) ∧
      (witnessShape2.find? (connectToPreviousNode witnessGen2.node_based_graph 0) =
        some ⟨2, 180, 10⟩) ∧
      ((witnessShape2.filter (connectToPreviousNode witnessGen2.node_based_graph 0)).length =
        1)) ∧
    (∀ r ∈ witnessView2, witnessGen2.node_based_graph.GetTarget r.eid = 0 →
      r.entry_allowed =
        (let node_at := witnessGen2.node_based_graph.GetTarget 0
         let only_valid_turn := GetOnlyAllowedTurnIfExistent witnessGen2 0 node_at
         let is_barrier_node := witnessGen2.barrier_nodes node_at
         let valid_count := (witnessShape2.filter
           (fun road => is_allowed_turn witnessGen2 0 node_at only_valid_turn
             is_barrier_node road)).length
         if (is_allowed_turn witnessGen2 0 node_at only_valid_turn is_barrier_node
               ⟨2, 180, 10⟩ && !is_barrier_node && valid_count != 1) || valid_count == 0 then
           allow_uturn_at_dead_end witnessGen2 0 node_at only_valid_turn
             (⟨2, 180, 10⟩ : IntersectionShapeData).eid
         else
           is_allowed_turn witnessGen2 0 node_at only_valid_turn is_barrier_node
             ⟨2, 180, 10⟩)) :=
  ⟨⟨witnessGen2_transform_eval, witnessShape2_find, witnessShape2_count⟩,
    uturn_dead_end_redecision witnessGen2 0 0 witnessShape2 witnessShape2 [] witnessView2
      ⟨2, 180, 10⟩ ⟨2, 180, 10⟩ witnessGen2_transform_eval witnessShape2_find
      witnessShape2_find witnessShape2_count⟩

/-! Stability of the shape sort: filtering by a predicate whose elements all
share one comparator key commutes with the sort, so parallel edges (equal
bearings) keep their adjacency order. -/

theorem filter_orderedInsert_shapeLe_pos (base_bearing k : ℚ)
    (p : IntersectionShapeData → Bool) (a : IntersectionShapeData) (hpa : p a = true)
    (hka : angleBetweenBearings base_bearing a.bearing = k) :
    ∀ l : List IntersectionShapeData,
      (∀ x ∈ l, p x = true → angleBetweenBearings base_bearing x.bearing = k) →
      (List.orderedInsert (ShapeLe base_bearing) a l).filter p = a :: l.filter p := by
  intro l
  induction l with
  | nil =>
    intro _
    simp [List.orderedInsert, hpa]
  | cons b t ih =>
    intro hl
    rw [List.orderedInsert]
    by_cases hr : ShapeLe base_bearing a b
    · rw [if_pos hr, List.filter_cons_of_pos hpa]
    · rw [if_neg hr]
      have hpb : p b = false := by
        by_contra hpb
        rw [Bool.not_eq_false] at hpb
        apply hr
        unfold ShapeLe
        rw [hka, hl b (List.mem_cons_self b t) hpb]
      rw [List.filter_cons_of_neg (by rw [hpb]; exact Bool.false_ne_true),
        List.filter_cons_of_neg (by rw [hpb]; exact Bool.false_ne_true)]
      exact ih (fun x hx => hl x (List.mem_cons_of_mem b hx))

theorem filter_orderedInsert_shapeLe_neg (base_bearing : ℚ)
    (p : IntersectionShapeData → Bool) (a : IntersectionShapeData) (hpa : p a = false) :
    ∀ l : List IntersectionShapeData,
      (List.orderedInsert (ShapeLe base_bearing) a l).filter p = l.filter p := by
  intro l
  induction l with
  | nil => simp [List.orderedInsert, hpa]
  | cons b t ih =>
    rw [List.orderedInsert]
    by_cases hr : ShapeLe base_bearing a b
    · rw [if_pos hr,
        List.filter_cons_of_neg (by rw [hpa]; exact Bool.false_ne_true)]
    · rw [if_neg hr]
      by_cases hpb : p b
      · rw [List.filter_cons_of_pos hpb, List.filter_cons_of_pos hpb, ih]
      · rw [List.filter_cons_of_neg hpb, List.filter_cons_of_neg hpb, ih]

theorem filter_insertionSort_shapeLe (base_bearing k : ℚ)
    (p : IntersectionShapeData → Bool) :
    ∀ l : List IntersectionShapeData,
      (∀ x ∈ l, p x = true → angleBetweenBearings base_bearing x.bearing = k) →
      (List.insertionSort (ShapeLe base_bearing) l).filter p = l.filter p := by
  intro l
  induction l with
  | nil => intro _; rfl
  | cons a t ih =>
    intro hl
    have hl' : ∀ x ∈ t, p x = true → angleBetweenBearings base_bearing x.bearing = k :=
      fun x hx => hl x (List.mem_cons_of_mem a hx)
    rw [List.insertionSort]
    by_cases hpa : p a
    · rw [filter_orderedInsert_shapeLe_pos base_bearing k p a hpa
          (hl a (List.mem_cons_self a t) hpa)
          (List.insertionSort (ShapeLe base_bearing) t)
          (fun x hx => hl' x ((List.perm_insertionSort (ShapeLe base_bearing) t).mem_iff.mp hx)),
        ih hl', List.filter_cons_of_pos hpa]
    · rw [filter_orderedInsert_shapeLe_neg base_bearing p a
          (Bool.not_eq_true _ ▸ Bool.of_not_eq_true hpa) _, ih hl',
        List.filter_cons_of_neg hpa]

/-- Map and filter commute for the shape builder: a shape entry targets
previous_node exactly when its edge does. -/
theorem filter_connect_shape_map (gen : IntersectionGenerator)
    (node_at_center intersection_degree intersection_lanes : Nat)
    (use_low_precision_angles : Bool) (previous_node : NodeID) (l : List EdgeID) :
    (l.map (shapeEntry gen node_at_center intersection_degree intersection_lanes
        use_low_precision_angles)).filter
        (connectToPreviousNode gen.node_based_graph previous_node) =
      (l.filter (fun e => gen.node_based_graph.GetTarget e == previous_node)).map
        (shapeEntry gen node_at_center intersection_degree intersection_lanes
          use_low_precision_angles) := by
  induction l with
  | nil => rfl
  | cons e t ih =>
    rw [List.map_cons]
    by_cases hp : gen.node_based_graph.GetTarget e == previous_node
    · have hps : connectToPreviousNode gen.node_based_graph previous_node
          (shapeEntry gen node_at_center intersection_degree intersection_lanes
            use_low_precision_angles e) = true := hp
      rw [List.filter_cons_of_pos hps,
        @List.filter_cons_of_pos _
          (fun e' => gen.node_based_graph.GetTarget e' == previous_node) e t hp,
        List.map_cons, ih]
    · have hps : ¬ connectToPreviousNode gen.node_based_graph previous_node
          (shapeEntry gen node_at_center intersection_degree intersection_lanes
            use_low_precision_angles e) = true := hp
      rw [List.filter_cons_of_neg hps,
        @List.filter_cons_of_neg _
          (fun e' => gen.node_based_graph.GetTarget e' == previous_node) e t hp, ih]

theorem ComputeIntersectionShape_nil (gen : IntersectionGenerator) (node_at : NodeID)
    (sorting_base : Option NodeID) (use_low_precision_angles : Bool)
    (h : (gen.node_based_graph.GetAdjacentEdgeRange node_at).map
      (shapeEntry gen node_at (gen.node_based_graph.GetAdjacentEdgeRange node_at).length
        (getLaneCountAtIntersection gen.node_based_graph node_at)
        use_low_precision_angles) = []) :
    ComputeIntersectionShape gen node_at sorting_base use_low_precision_angles = [] := by
  unfold ComputeIntersectionShape
  simp only []
  rw [h]

theorem ComputeIntersectionShape_cons (gen : IntersectionGenerator) (node_at : NodeID)
    (sorting_base : Option NodeID) (use_low_precision_angles : Bool)
    (first : IntersectionShapeData) (rest : List IntersectionShapeData)
    (h : (gen.node_based_graph.GetAdjacentEdgeRange node_at).map
      (shapeEntry gen node_at (gen.node_based_graph.GetAdjacentEdgeRange node_at).length
        (getLaneCountAtIntersection gen.node_based_graph node_at)
        use_low_precision_angles) = first :: rest) :
    ComputeIntersectionShape gen node_at sorting_base use_low_precision_angles =
      List.insertionSort
        (ShapeLe (shapeBaseBearing gen sorting_base first (first :: rest)))
        (first :: rest) := by
  unfold ComputeIntersectionShape
  simp only []
  rw [h]

/-- C5: on a shape built by ComputeIntersectionShape, the u-turn edge that
TransformIntersectionShapeIntoView selects (the first shape entry whose
target is previous_node, used both for the merge lookup and for the dead-end
re-decision) targets previous_node and has the minimal edge id among all
such entries, provided the adjacency range is listed in increasing edge id
order and parallel edges toward previous_node receive equal bearings (they
share their coordinates); if no such entry exists the transform refuses the
inputs (none, the modelled assertion failure). -/
theorem uturn_edge_minimal_id (gen : IntersectionGenerator)
    (previous_node node_at : NodeID) (sorting_base : Option NodeID)
    (use_low_precision_angles : Bool) (entering_via_edge : EdgeID)
    (normalised_intersection : List IntersectionShapeData)
    (performed_merges : List (EdgeID × EdgeID))
    (hadj : (gen.node_based_graph.GetAdjacentEdgeRange node_at).Pairwise (· < ·))
    (hpar : ∀ e ∈ gen.node_based_graph.GetAdjacentEdgeRange node_at,
      ∀ e' ∈ gen.node_based_graph.GetAdjacentEdgeRange node_at,
      gen.node_based_graph.GetTarget e = previous_node →
      gen.node_based_graph.GetTarget e' = previous_node →
      (shapeEntry gen node_at (gen.node_based_graph.GetAdjacentEdgeRange node_at).length
        (getLaneCountAtIntersection gen.node_based_graph node_at)
        use_low_precision_angles e).bearing =
      (shapeEntry gen node_at (gen.node_based_graph.GetAdjacentEdgeRange node_at).length
        (getLaneCountAtIntersection gen.node_based_graph node_at)
        use_low_precision_angles e').bearing) :
    (∀ u, (ComputeIntersectionShape gen node_at sorting_base
        use_low_precision_angles).find?
        (connectToPreviousNode gen.node_based_graph previous_node) = some u →
      gen.node_based_graph.GetTarget u.eid = previous_node ∧
      ∀ d ∈ ComputeIntersectionShape gen node_at sorting_base use_low_precision_angles,
        gen.node_based_graph.GetTarget d.eid = previous_node → u.eid ≤ d.eid) ∧
    ((ComputeIntersectionShape gen node_at sorting_base use_low_precision_angles).find?
        (connectToPreviousNode gen.node_based_graph previous_node) = none →
      TransformIntersectionShapeIntoView gen previous_node entering_via_edge
        normalised_intersection
        (ComputeIntersectionShape gen node_at sorting_base use_low_precision_angles)
        performed_merges = none) := by
  constructor
  · intro u hu
    have hpu : gen.node_based_graph.GetTarget u.eid = previous_node := by
      have := List.find?_some hu
      unfold connectToPreviousNode at this
      rwa [beq_iff_eq] at this
    refine ⟨hpu, ?_⟩
    intro d hd hdprev
    rcases hshape : (gen.node_based_graph.GetAdjacentEdgeRange node_at).map
        (shapeEntry gen node_at (gen.node_based_graph.GetAdjacentEdgeRange node_at).length
          (getLaneCountAtIntersection gen.node_based_graph node_at)
          use_low_precision_angles) with - | ⟨first, rest⟩
    · rw [ComputeIntersectionShape_nil gen node_at sorting_base use_low_precision_angles
        hshape] at hu
      simp at hu
    · have hcs := ComputeIntersectionShape_cons gen node_at sorting_base
        use_low_precision_angles first rest hshape
      rw [hcs] at hu hd
      have humem : u ∈ first :: rest :=
        (List.perm_insertionSort _ _).mem_iff.mp (List.mem_of_find?_eq_some hu)
      have hdmem : d ∈ first :: rest := (List.perm_insertionSort _ _).mem_iff.mp hd
      have hkey : ∀ x ∈ first :: rest,
          connectToPreviousNode gen.node_based_graph previous_node x = true →
          angleBetweenBearings
            (shapeBaseBearing gen sorting_base first (first :: rest)) x.bearing =
          angleBetweenBearings
            (shapeBaseBearing gen sorting_base first (first :: rest)) u.bearing := by
        intro x hx hpx
        have hpx' : gen.node_based_graph.GetTarget x.eid = previous_node := by
          unfold connectToPreviousNode at hpx
          rwa [beq_iff_eq] at hpx
        rw [← hshape] at hx
        obtain ⟨ex, hex, rfl⟩ := List.mem_map.mp hx
        rw [← hshape] at humem
        obtain ⟨eu, heu, hueq⟩ := List.mem_map.mp humem
        rw [← hueq]
        have hbear := hpar ex hex eu heu hpx'
          (by have h := hpu; rw [← hueq] at h; exact h)
        rw [hbear]
      have hfil : (List.insertionSort
          (ShapeLe (shapeBaseBearing gen sorting_base first (first :: rest)))
          (first :: rest)).filter
          (connectToPreviousNode gen.node_based_graph previous_node) =
          ((gen.node_based_graph.GetAdjacentEdgeRange node_at).filter
            (fun e => gen.node_based_graph.GetTarget e == previous_node)).map
            (shapeEntry gen node_at
              (gen.node_based_graph.GetAdjacentEdgeRange node_at).length
              (getLaneCountAtIntersection gen.node_based_graph node_at)
              use_low_precision_angles) := by
        rw [filter_insertionSort_shapeLe _ _ _ _ hkey, ← hshape,
          filter_connect_shape_map]
      rw [find?_eq_head_filter, hfil] at hu
      have hpd : connectToPreviousNode gen.node_based_graph previous_node d = true := by
        unfold connectToPreviousNode
        rw [beq_iff_eq]
        exact hdprev
      have hdfil : d ∈ ((gen.node_based_graph.GetAdjacentEdgeRange node_at).filter
          (fun e => gen.node_based_graph.GetTarget e == previous_node)).map
          (shapeEntry gen node_at
            (gen.node_based_graph.GetAdjacentEdgeRange node_at).length
            (getLaneCountAtIntersection gen.node_based_graph node_at)
            use_low_precision_angles) := by
        rw [← hfil]
        exact List.mem_filter.mpr ⟨hd, hpd⟩
      have hpfil : ((gen.node_based_graph.GetAdjacentEdgeRange node_at).filter
          (fun e => gen.node_based_graph.GetTarget e == previous_node)).Pairwise
          (· < ·) :=
        hadj.sublist (List.filter_sublist _)
      rcases hflt : (gen.node_based_graph.GetAdjacentEdgeRange node_at).filter
          (fun e => gen.node_based_graph.GetTarget e == previous_node) with - | ⟨e₀, tl⟩
      · rw [hflt] at hu
        simp at hu
      · rw [hflt] at hu hdfil hpfil
        rw [List.map_cons, List.head?_cons] at hu
        rcases hu with ⟨rfl⟩
        rw [List.map_cons] at hdfil
        rcases List.mem_cons.mp hdfil with rfl | hdtl
        · exact le_refl _
        · obtain ⟨ed, hed, rfl⟩ := List.mem_map.mp hdtl
          have : e₀ < ed := (List.pairwise_cons.mp hpfil).1 ed hed
          exact le_of_lt this
  · intro hnone
    unfold TransformIntersectionShapeIntoView
    simp only [hnone]

/-- C4: when an explicit sorting base is supplied and some entry of the
shape targets it, ComputeIntersectionShape places that entry first: the base
bearing is the reversed bearing of the first such entry e0, whose clockwise
angle from the base on the turn circle is exactly 0, and, provided no other
entry ties at angle 0, the sorted shape starts with e0. -/
theorem shape_sorting_base_leads (gen : IntersectionGenerator) (node_at sb : NodeID)
    (use_low_precision_angles : Bool) (e₀ : IntersectionShapeData)
    (hfind : ((gen.node_based_graph.GetAdjacentEdgeRange node_at).map
      (shapeEntry gen node_at (gen.node_based_graph.GetAdjacentEdgeRange node_at).length
        (getLaneCountAtIntersection gen.node_based_graph node_at)
        use_low_precision_angles)).find?
      (fun data => gen.node_based_graph.GetTarget data.eid == sb) = some e₀)
    (huniq : ∀ d ∈ (gen.node_based_graph.GetAdjacentEdgeRange node_at).map
      (shapeEntry gen node_at (gen.node_based_graph.GetAdjacentEdgeRange node_at).length
        (getLaneCountAtIntersection gen.node_based_graph node_at)
        use_low_precision_angles),
      angleBetweenBearings (reverseBearing e₀.bearing) d.bearing = 0 → d = e₀) :
    (ComputeIntersectionShape gen node_at (some sb) use_low_precision_angles).head? =
      some e₀ ∧
    angleBetweenBearings (reverseBearing e₀.bearing) e₀.bearing = 0 := by
  refine ⟨?_, angleBetweenBearings_reverse_self e₀.bearing⟩
  rcases hshape : (gen.node_based_graph.GetAdjacentEdgeRange node_at).map
      (shapeEntry gen node_at (gen.node_based_graph.GetAdjacentEdgeRange node_at).length
        (getLaneCountAtIntersection gen.node_based_graph node_at)
        use_low_precision_angles) with - | ⟨first, rest⟩
  · rw [hshape] at hfind
    simp at hfind
  · rw [hshape] at hfind huniq
    rw [ComputeIntersectionShape_cons gen node_at (some sb) use_low_precision_angles
      first rest hshape]
    have hbase : shapeBaseBearing gen (some sb) first (first :: rest) =
        reverseBearing e₀.bearing := by
      unfold shapeBaseBearing
      simp only []
      rw [hfind]
    rw [hbase]
    have he₀mem0 : e₀ ∈ first :: rest := List.mem_of_find?_eq_some hfind
    have hperm := List.perm_insertionSort (ShapeLe (reverseBearing e₀.bearing)) (first :: rest)
    have hsorted := List.sorted_insertionSort (ShapeLe (reverseBearing e₀.bearing))
      (first :: rest)
    have he₀mem : e₀ ∈ List.insertionSort (ShapeLe (reverseBearing e₀.bearing))
        (first :: rest) := hperm.mem_iff.mpr he₀mem0
    rcases hs : List.insertionSort (ShapeLe (reverseBearing e₀.bearing)) (first :: rest)
        with - | ⟨h₀, t⟩
    · rw [hs] at he₀mem
      simp at he₀mem
    · rw [hs] at he₀mem hsorted hperm
      rw [List.head?_cons]
      rcases List.mem_cons.mp he₀mem with rfl | he₀t

      · rfl
      · have hle : ShapeLe (reverseBearing e₀.bearing) h₀ e₀ :=
          List.rel_of_sorted_cons hsorted e₀ he₀t
        have hkey0 : angleBetweenBearings (reverseBearing e₀.bearing) h₀.bearing = 0 := by
          have h1 : angleBetweenBearings (reverseBearing e₀.bearing) h₀.bearing ≤ 0 := by
            have := hle
            unfold ShapeLe at this
            rwa [angleBetweenBearings_reverse_self] at this
          exact le_antisymm h1 (angleBetweenBearings_nonneg _ _)
        have hh₀mem : h₀ ∈ first :: rest :=
          hperm.mem_iff.mp (List.mem_cons_self h₀ t)
        rw [huniq h₀ hh₀mem hkey0]

theorem normBearing_eq_add {x : ℚ} (h0 : -360 ≤ x) (h1 : x < 0) :
    normBearing x = x + 360 := by
  unfold normBearing
  have hf : ⌊x / 360⌋ = -1 := by
    rw [Int.floor_eq_iff]
    constructor
    · push_cast
      linarith
    · push_cast
      linarith
  rw [hf]
  push_cast
  ring

/-- Concrete graph for the parallel-edge scenario: node 1 with two parallel
edges 1, 2 back to node 0 and edge 3 to node 2. -/
def witnessGraph5 : NodeBasedDynamicGraph :=
  { numNodes := 3,
    GetTarget := fun e =>
      if e = 0 then 1 else if e = 1 then 0 else if e = 2 then 0
      else if e = 3 then 2 else if e = 4 then 1 else 0,
    GetAdjacentEdgeRange := fun n =>
      if n = 0 then [0] else if n = 1 then [1, 2, 3] else if n = 2 then [4] else [],
    BeginEdges := fun n =>
      if n = 0 then 0 else if n = 1 then 1 else if n = 2 then 4 else 0,
    GetEdgeData := fun _ => witnessEdgeData }

/-- Concrete generator over witnessGraph5: the coordinate extractor picks the
point next to the target node, so parallel edges share their bearing. -/
def witnessGen5 : IntersectionGenerator :=
  { node_based_graph := witnessGraph5,
    restriction_map :=
      { CheckIfTurnIsRestricted := fun _ _ _ => false,
        CheckForEmanatingIsOnlyTurn := fun _ _ => SPECIAL_NODEID },
    barrier_nodes := fun _ => false,
    node_info_list := fun n => ⟨n, 0⟩,
    coordinate_extractor :=
      { GetCoordinatesAlongRoad := fun _ _ _ to_node => [⟨0, 0⟩, ⟨to_node, 1⟩],
        GetCoordinateCloseToTurn := fun _ _ _ to_node => ⟨to_node, 1⟩,
        ExtractRepresentativeCoordinate := fun _ _ _ to_node _ _ => ⟨to_node, 1⟩ },
    bearing := fun _ b => 10 * b.lon + 100 * b.lat,
    haversineDistance := fun _ _ => 1 }

theorem witnessGen1_shape_eval :
    (witnessGen1.node_based_graph.GetAdjacentEdgeRange 1).map
      (shapeEntry witnessGen1 1
        (witnessGen1.node_based_graph.GetAdjacentEdgeRange 1).length
        (getLaneCountAtIntersection witnessGen1.node_based_graph 1) true) =
      [⟨1, 100, 1⟩, ⟨2, 120, 1⟩, ⟨3, 130, 1⟩] := by
  norm_num [witnessGen1, witnessGraph1, shapeEntry, getLength,
    getLaneCountAtIntersection, witnessEdgeData]

theorem witness4_hfind :
    ((witnessGen1.node_based_graph.GetAdjacentEdgeRange 1).map
      (shapeEntry witnessGen1 1
        (witnessGen1.node_based_graph.GetAdjacentEdgeRange 1).length
        (getLaneCountAtIntersection witnessGen1.node_based_graph 1) true)).find?
      (fun data => witnessGen1.node_based_graph.GetTarget data.eid == 2) =
      some ⟨2, 120, 1⟩ := by
  rw [witnessGen1_shape_eval]
  norm_num [List.find?, witnessGen1, witnessGraph1,
    show ((0 : Nat) == 2) = false from rfl, show ((2 : Nat) == 2) = true from rfl]

theorem witness4_huniq :
    ∀ d ∈ (witnessGen1.node_based_graph.GetAdjacentEdgeRange 1).map
      (shapeEntry witnessGen1 1
        (witnessGen1.node_based_graph.GetAdjacentEdgeRange 1).length
        (getLaneCountAtIntersection witnessGen1.node_based_graph 1) true),
      angleBetweenBearings
        (reverseBearing (⟨2, 120, 1⟩ : IntersectionShapeData).bearing) d.bearing = 0 →
      d = ⟨2, 120, 1⟩ := by
  rw [witnessGen1_shape_eval]
  intro d hd h0
  fin_cases hd
  · norm_num [angleBetweenBearings, reverseBearing, normBearing_eq_self,
      normBearing_eq_add] at h0
  · rfl
  · norm_num [angleBetweenBearings, reverseBearing, normBearing_eq_self,
      normBearing_eq_add] at h0

/-- Witness for C4: sorting base 2 at node 1 of the barrier scenario graph
places the road toward node 2 first. -/
theorem shape_sorting_base_leads_witness :
    ((((witnessGen1.node_based_graph.GetAdjacentEdgeRange 1).map
        (shapeEntry witnessGen1 1
          (witnessGen1.node_based_graph.GetAdjacentEdgeRange 1).length
          (getLaneCountAtIntersection witnessGen1.node_based_graph 1) true)).find?
        (fun data => witnessGen1.node_based_graph.GetTarget data.eid == 2) =
        some ⟨2, 120, 1⟩) ∧
      (∀ d ∈ (witnessGen1.node_based_graph.GetAdjacentEdgeRange 1).map
        (shapeEntry witnessGen1 1
          (witnessGen1.node_based_graph.GetAdjacentEdgeRange 1).length
          (getLaneCountAtIntersection witnessGen1.node_based_graph 1) true),
        angleBetweenBearings
          (reverseBearing (⟨2, 120, 1⟩ : IntersectionShapeData).bearing) d.bearing = 0 →
        d = ⟨2, 120, 1⟩)) ∧
    ((ComputeIntersectionShape witnessGen1 1 (some 2) true).head? = some ⟨2, 120, 1⟩ ∧
      angleBetweenBearings
        (reverseBearing (⟨2, 120, 1⟩ : IntersectionShapeData).bearing)
        (⟨2, 120, 1⟩ : IntersectionShapeData).bearing = 0) :=
  ⟨⟨witness4_hfind, witness4_huniq⟩,
    shape_sorting_base_leads witnessGen1 1 2 true ⟨2, 120, 1⟩ witness4_hfind witness4_huniq⟩

theorem witness5_hadj :
    (witnessGen5.node_based_graph.GetAdjacentEdgeRange 1).Pairwise (· < ·) := by
  norm_num [witnessGen5, witnessGraph5, List.pairwise_cons]

theorem witness5_hpar :
    ∀ e ∈ witnessGen5.node_based_graph.GetAdjacentEdgeRange 1,
      ∀ e' ∈ witnessGen5.node_based_graph.GetAdjacentEdgeRange 1,
      witnessGen5.node_based_graph.GetTarget e = 0 →
      witnessGen5.node_based_graph.GetTarget e' = 0 →
      (shapeEntry witnessGen5 1
        (witnessGen5.node_based_graph.GetAdjacentEdgeRange 1).length
        (getLaneCountAtIntersection witnessGen5.node_based_graph 1) true e).bearing =
      (shapeEntry witnessGen5 1
        (witnessGen5.node_based_graph.GetAdjacentEdgeRange 1).length
        (getLaneCountAtIntersection witnessGen5.node_based_graph 1) true e').bearing := by
  intro e he e' he' h1 h2
  fin_cases he <;> fin_cases he' <;>
    norm_num [shapeEntry, getLength, getLaneCountAtIntersection, witnessGen5,
      witnessGraph5, witnessEdgeData] at h1 h2 ⊢

/-- Witness for C5 on the parallel-edge scenario: the selected u-turn edge
is edge 1, the minimal id among the two parallel edges back to node 0. -/
theorem uturn_edge_minimal_id_witness :
    ((witnessGen5.node_based_graph.GetAdjacentEdgeRange 1).Pairwise (· < ·) ∧
      (∀ e ∈ witnessGen5.node_based_graph.GetAdjacentEdgeRange 1,
        ∀ e' ∈ witnessGen5.node_based_graph.GetAdjacentEdgeRange 1,
        witnessGen5.node_based_graph.GetTarget e = 0 →
        witnessGen5.node_based_graph.GetTarget e' = 0 →
        (shapeEntry witnessGen5 1
          (witnessGen5.node_based_graph.GetAdjacentEdgeRange 1).length
          (getLaneCountAtIntersection witnessGen5.node_based_graph 1) true e).bearing =
        (shapeEntry witnessGen5 1
          (witnessGen5.node_based_graph.GetAdjacentEdgeRange 1).length
          (getLaneCountAtIntersection witnessGen5.node_based_graph 1) true e').bearing)) ∧
    ((∀ u, (ComputeIntersectionShape witnessGen5 1 none true).find?
        (connectToPreviousNode witnessGen5.node_based_graph 0) = some u →
      witnessGen5.node_based_graph.GetTarget u.eid = 0 ∧
      ∀ d ∈ ComputeIntersectionShape witnessGen5 1 none true,
        witnessGen5.node_based_graph.GetTarget d.eid = 0 → u.eid ≤ d.eid) ∧
    ((ComputeIntersectionShape witnessGen5 1 none true).find?
        (connectToPreviousNode witnessGen5.node_based_graph 0) = none →
      TransformIntersectionShapeIntoView witnessGen5 0 0 []
        (ComputeIntersectionShape witnessGen5 1 none true) [] = none)) :=
  ⟨⟨witness5_hadj, witness5_hpar⟩,
    uturn_edge_minimal_id witnessGen5 0 1 none true 0 [] [] witness5_hadj witness5_hpar⟩

end Osrm
